import Mathlib

/-!
Shallow embedding of the batch-embedding and similarity-graph pipeline of the
notion-knowledge-graph repository, and proofs about the claims of its
specification.

Two near-duplicate pipeline variants exist in the source:
 * the "notion" pipeline: scripts/vector_store.py (embedding + vector store
   writer), scripts/graph_builder.py (graph materializer) and
   scripts/similarity_edges.py (similarity resolver);
 * the "code" pipeline: scripts/code_embedder.py and
   scripts/code_graph_builder.py.

Each Python function relevant to a claim is translated into a Lean definition
in a namespace named after its script.  External services (the embedding
model, the Qdrant vector index, the Neo4j graph store) are modelled as
explicit state or as oracle functions passed in as parameters:
 * the embedding model is a function from an encode request to
   Option (List Vec) (none = the call raised);
 * Qdrant upsert outcomes are a Bool list indexed by call number
   (true = success, out-of-range defaults to success);
 * the Neo4j store is a Graph value; the MERGE / MATCH / DELETE statements
   of the source are given their Cypher semantics on that value.
-/

namespace NotionKG

/-- A dense embedding vector (the reference system uses 1024 rationals;
the dimension is irrelevant to the control flow being verified). -/
abbrev Vec := List ℚ

/-- Structural worker for chunksOf: the fuel bounds the number of chunks
and is always instantiated with the list length, which suffices because
every step consumes at least the head element. -/
def chunksOfAux (B : Nat) : Nat → List α → List (List α)
  | _, [] => []
  | 0, _ :: _ => []
  | fuel + 1, a :: l => (a :: l).take B :: chunksOfAux B fuel (l.drop (B - 1))

/-- Contiguous chunking used by the batch loops
(Python: for i in range(0, len(xs), B): xs[i:i+B]).
For B = 0 the Python loop would not terminate either; all uses have
B = 4. -/
def chunksOf (B : Nat) (l : List α) : List (List α) :=
  chunksOfAux B l.length l

/-- Python string comparison on code-point lists: the lexicographic order
the source uses for symmetry breaking. -/
def strLtB : List Char → List Char → Bool
  | [], [] => false
  | [], _ :: _ => true
  | _ :: _, [] => false
  | a :: as, b :: bs =>
    if a.toNat < b.toNat then true
    else if b.toNat < a.toNat then false
    else strLtB as bs

/-- Python s1 < s2 on strings (lexicographic by code point). -/
def strLt (a b : String) : Bool := strLtB a.toList b.toList

/-! ## scripts/vector_store.py — the notion embedding pipeline -/

namespace VectorStore

/-- Module-level batching constants of scripts/vector_store.py. -/
def BATCH_SIZE : Nat := 4

def MAX_TEXT_LENGTH : Nat := 2048

def UPSERT_BATCH_SIZE : Nat := 10

def VECTOR_DIM : Nat := 1024

def COLLECTION_NAME : String := "notion_pages"

/-- A document record from pages.json as read by the notion pipeline. -/
structure Page where
  id : String
  title : String
  content : String
  url : String
  created_time : String
  last_edited_time : String
  word_count : Nat
  block_count : Nat
  parent_page_id : String
  parent_database_id : String
  parent_type : String
  tags : List String
  links : List String
deriving DecidableEq, Repr

/-- prepare_text_for_embedding: title-prefixed text, truncated to
MAX_TEXT_LENGTH * 2 characters. -/
def prepare_text_for_embedding (page : Page) : String :=
  let text := if page.content ≠ "" then page.title ++ "\x0a\x0a" ++ page.content
              else page.title
  let maxChars := MAX_TEXT_LENGTH * 2
  if text.length > maxChars then (text.toList.take maxChars).asString else text

/-- The argument record of one model.encode call as issued by embed_batch. -/
structure EncodeRequest where
  texts : List String
  batchSize : Nat
  maxLength : Nat
  returnDense : Bool
  returnSparse : Bool
  returnColbert : Bool
deriving DecidableEq, Repr

/-- embed_batch builds exactly this request for a chunk of texts:
one call per chunk, dense vectors only. -/
def embed_batch_request (texts : List String) : EncodeRequest :=
  { texts := texts
    batchSize := texts.length
    maxLength := MAX_TEXT_LENGTH
    returnDense := true
    returnSparse := false
    returnColbert := false }

/-- The embedding model as an oracle: none models a raised exception. -/
abbrev Encoder := EncodeRequest → Option (List Vec)

/-- notion_id_to_uuid: strip dashes and rewrite in canonical 8-4-4-4-12
layout (uuid.UUID lowercases the hex digits). -/
def notion_id_to_uuid (notionId : String) : String :=
  let clean := ((notionId.toList.filter (fun c => c ≠ Char.ofNat 45)).map
    Char.toLower).asString
  let part (a b : Nat) : String := ((clean.toList.drop a).take b).asString
  part 0 8 ++ "-" ++ part 8 4 ++ "-" ++ part 12 4 ++ "-" ++ part 16 4
    ++ "-" ++ part 20 12

/-- The queryable payload stored with each embedded point. -/
structure Payload where
  notion_id : String
  title : String
  created_time : String
  last_edited_time : String
  url : String
  word_count : Nat
  block_count : Nat
  parent_id : String
  content_preview : String
  tags : List String
deriving DecidableEq, Repr

/-- A Qdrant point as built by process_pages. -/
structure QPoint where
  pid : String
  vector : Vec
  payload : Payload
deriving DecidableEq, Repr

/-- The PointStruct built for one page and its vector. -/
def page_to_point (page : Page) (vector : Vec) : QPoint :=
  { pid := notion_id_to_uuid page.id
    vector := vector
    payload :=
      { notion_id := page.id
        title := page.title
        created_time := page.created_time
        last_edited_time := page.last_edited_time
        url := page.url
        word_count := page.word_count
        block_count := page.block_count
        parent_id := page.parent_page_id
        content_preview := (page.content.toList.take 500).asString
        tags := page.tags } }

/-- Qdrant upsert of one point: replace the point with the same id if
present, else append (insert-or-update keyed write). -/
def upsertOne (ps : List QPoint) (p : QPoint) : List QPoint :=
  if ps.any (fun q => q.pid = p.pid) then
    ps.map (fun q => if q.pid = p.pid then p else q)
  else ps ++ [p]

/-- Qdrant upsert of a batch of points. -/
def upsertPoints (ps : List QPoint) (batch : List QPoint) : List QPoint :=
  batch.foldl upsertOne ps

/-- Outcome of the k-th Qdrant upsert call of a run (true = success);
calls beyond the listed prefix succeed. -/
def outcomeAt (outs : List Bool) (k : Nat) : Bool := outs.getD k true

/-- Mutable state of the process_pages loop: the vector store contents,
the in-memory points buffer, the processed/error tallies and the index of
the next upsert call. -/
structure WState where
  store : List QPoint
  buffer : List QPoint
  processed : Nat
  errors : Nat
  k : Nat
deriving DecidableEq, Repr

/-- The upsert block of process_pages (vector_store.py lines 187-200):
try the upsert; on failure sleep two seconds and retry once; if the retry
also fails, drop the buffer and add its size to the error counter. -/
def flushBuffer (outs : List Bool) (st : WState) : WState :=
  if outcomeAt outs st.k then
    { st with store := upsertPoints st.store st.buffer, buffer := [], k := st.k + 1 }
  else if outcomeAt outs (st.k + 1) then
    { st with store := upsertPoints st.store st.buffer, buffer := [], k := st.k + 2 }
  else
    { st with errors := st.errors + st.buffer.length, buffer := [], k := st.k + 2 }

/-- One iteration of the embedding loop of process_pages for a chunk of
(page, text) pairs: embed the chunk; on failure add BATCH_SIZE to the error
counter and continue (skipping the flush check); on success append one point
per (page, vector) pair and flush whenever the buffer has reached
UPSERT_BATCH_SIZE. -/
def chunkStep (enc : Encoder) (outs : List Bool) (st : WState)
    (c : List (Page × String)) : WState :=
  match enc (embed_batch_request (c.map Prod.snd)) with
  | none => { st with errors := st.errors + BATCH_SIZE }
  | some vs =>
    let newPts := List.zipWith page_to_point (c.map Prod.fst) vs
    let st1 := { st with buffer := st.buffer ++ newPts,
                         processed := st.processed + newPts.length }
    if UPSERT_BATCH_SIZE ≤ st1.buffer.length then flushBuffer outs st1 else st1

/-- The full embedding loop over the chunks. -/
def embedLoop (enc : Encoder) (outs : List Bool) :
    WState → List (List (Page × String)) → WState
  | st, [] => st
  | st, c :: cs => embedLoop enc outs (chunkStep enc outs st c) cs

/-- Python text.strip() is empty exactly when every character is
whitespace. -/
def isBlank (s : String) : Bool := s.toList.all Char.isWhitespace

/-- The content filter at the top of process_pages: keep pages whose
prepared text is non-blank (text.strip() truthy), paired with that text. -/
def validPages (pages : List Page) : List (Page × String) :=
  pages.filterMap (fun p =>
    let t := prepare_text_for_embedding p
    if ¬ isBlank t then some (p, t) else none)

/-- Final statistics of a process_pages run. -/
structure RunStats where
  total : Nat
  processed : Nat
  skipped_empty : Nat
  errors : Nat
deriving DecidableEq, Repr

/-- process_pages: filter empty pages, embed in chunks of BATCH_SIZE,
buffer points and upsert with one retry, then upsert the remainder with a
single unguarded call — a failure there raises out of the function, which
the model renders as Except.error. -/
def process_pages (pages : List Page) (enc : Encoder) (outs : List Bool) :
    Except Unit (RunStats × List QPoint) :=
  let valid := validPages pages
  let skippedEmpty := pages.length - valid.length
  let st := embedLoop enc outs
    { store := [], buffer := [], processed := 0, errors := 0, k := 0 }
    (chunksOf BATCH_SIZE valid)
  let stats : RunStats :=
    { total := pages.length, processed := st.processed,
      skipped_empty := skippedEmpty, errors := st.errors }
  if st.buffer.isEmpty then Except.ok (stats, st.store)
  else if outcomeAt outs st.k then
    Except.ok (stats, upsertPoints st.store st.buffer)
  else Except.error ()

/-- A Qdrant collection of the notion pipeline: its points, its configured
vector dimension and its payload indexes. -/
structure QCollection where
  points : List QPoint
  vectorDim : Nat
  payloadIndexes : List String
deriving DecidableEq, Repr

/-- The Qdrant server state: collections by name. -/
abbrev QdrantState := List (String × QCollection)

/-- create_payload_index on a named collection. -/
def addPayloadIndex (s : QdrantState) (name field : String) : QdrantState :=
  s.map (fun c => if c.1 = name then
    (c.1, { c.2 with payloadIndexes := c.2.payloadIndexes ++ [field] }) else c)

/-- init_qdrant of vector_store.py: if the collection already exists it is
deleted, then it is recreated empty with 1024-dimensional cosine vectors and
a word_count payload index. -/
def init_qdrant (s : QdrantState) : QdrantState :=
  let s1 := if s.any (fun c => c.1 = COLLECTION_NAME)
            then s.filter (fun c => c.1 ≠ COLLECTION_NAME) else s
  let s2 := (COLLECTION_NAME,
    ({ points := [], vectorDim := VECTOR_DIM, payloadIndexes := [] } : QCollection)) :: s1
  addPayloadIndex s2 COLLECTION_NAME "word_count"

/-- Collection lookup by name. -/
def findCollection (s : QdrantState) (name : String) : Option QCollection :=
  (s.find? (fun c => c.1 = name)).map Prod.snd

/-- Point lookup by id inside a named collection. -/
def findPoint (s : QdrantState) (name pid : String) : Option QPoint :=
  match findCollection s name with
  | none => none
  | some c => c.points.find? (fun p => p.pid = pid)

end VectorStore

/-! ## scripts/code_embedder.py — the code embedding pipeline -/

namespace CodeEmbedder

/-- Module-level batching constants of scripts/code_embedder.py. -/
def BATCH_SIZE : Nat := 4

def MAX_TEXT_LENGTH : Nat := 4096

def MAX_CHARS : Nat := 8000

def UPSERT_BATCH_SIZE : Nat := 20

def VECTOR_DIM : Nat := 1024

def COLLECTION_NAME : String := "kidsnote_ios"

/-- The path/declaration metadata extracted for one Swift file
(extract_metadata plus extract_swift_info). -/
structure CodeMeta where
  file_name : String
  module : String
  subpath : String
  relative_path : String
  imports : List String
  classes : List String
  structs : List String
  protocols : List String
deriving DecidableEq, Repr

/-- One entry of the valid_files list of process_files:
(file content, metadata, prepared embedding text). -/
structure CodeItem where
  content : String
  meta : CodeMeta
  text : String
deriving DecidableEq, Repr

/-- The model.encode request issued by embed_batch of code_embedder.py
(dense only, MAX_TEXT_LENGTH = 4096). -/
def embed_batch_request (texts : List String) : VectorStore.EncodeRequest :=
  { texts := texts
    batchSize := texts.length
    maxLength := MAX_TEXT_LENGTH
    returnDense := true
    returnSparse := false
    returnColbert := false }

/-- The queryable payload stored with each embedded code point. -/
structure CodePayload where
  file_name : String
  module : String
  subpath : String
  relative_path : String
  lines : Nat
  imports : List String
  classes : List String
  structs : List String
  protocols : List String
  content_preview : String
deriving DecidableEq, Repr

/-- A Qdrant point of the code collection. -/
structure CPoint where
  pid : String
  vector : Vec
  payload : CodePayload
deriving DecidableEq, Repr

/-- The PointStruct built for one code item and its vector.  The point id
is file_to_uuid of the relative path; file_to_uuid hashes with md5, an
external primitive, so the identity mapper is passed in as a function. -/
def item_to_point (fileUuid : String → String) (item : CodeItem) (vector : Vec) :
    CPoint :=
  { pid := fileUuid item.meta.relative_path
    vector := vector
    payload :=
      { file_name := item.meta.file_name
        module := item.meta.module
        subpath := item.meta.subpath
        relative_path := item.meta.relative_path
        lines := (item.content.splitOn "\x0a").length
        imports := item.meta.imports
        classes := item.meta.classes
        structs := item.meta.structs
        protocols := item.meta.protocols
        content_preview := (item.content.toList.take 1000).asString } }

/-- Qdrant upsert of one code point (insert-or-update keyed by pid). -/
def upsertOne (ps : List CPoint) (p : CPoint) : List CPoint :=
  if ps.any (fun q => q.pid = p.pid) then
    ps.map (fun q => if q.pid = p.pid then p else q)
  else ps ++ [p]

/-- Qdrant upsert of a batch of code points. -/
def upsertPoints (ps : List CPoint) (batch : List CPoint) : List CPoint :=
  batch.foldl upsertOne ps

/-- Mutable state of the process_files loop. -/
structure WState where
  store : List CPoint
  buffer : List CPoint
  processed : Nat
  errors : Nat
  k : Nat
deriving DecidableEq, Repr

/-- The upsert block of process_files (code_embedder.py lines 277-283):
one attempt, no retry — on failure the buffer is dropped and its size added
to the error counter. -/
def flushBuffer (outs : List Bool) (st : WState) : WState :=
  if VectorStore.outcomeAt outs st.k then
    { st with store := upsertPoints st.store st.buffer, buffer := [], k := st.k + 1 }
  else
    { st with errors := st.errors + st.buffer.length, buffer := [], k := st.k + 1 }

/-- One iteration of the embedding loop of process_files for a chunk of
code items: embed; on failure add BATCH_SIZE to the error counter and
continue; on success append the points and flush at UPSERT_BATCH_SIZE. -/
def chunkStep (fileUuid : String → String) (enc : VectorStore.Encoder)
    (outs : List Bool) (st : WState) (c : List CodeItem) : WState :=
  match enc (embed_batch_request (c.map CodeItem.text)) with
  | none => { st with errors := st.errors + BATCH_SIZE }
  | some vs =>
    let newPts := List.zipWith (item_to_point fileUuid) c vs
    let st1 := { st with buffer := st.buffer ++ newPts,
                         processed := st.processed + newPts.length }
    if UPSERT_BATCH_SIZE ≤ st1.buffer.length then flushBuffer outs st1 else st1

/-- The embedding loop of process_files over the chunks. -/
def embedLoop (fileUuid : String → String) (enc : VectorStore.Encoder)
    (outs : List Bool) : WState → List (List CodeItem) → WState
  | st, [] => st
  | st, c :: cs => embedLoop fileUuid enc outs (chunkStep fileUuid enc outs st c) cs

/-- process_files, from the batch-embedding loop on: chunked embedding with
per-chunk error counting, buffered upserts without retry, and a final bare
remainder upsert whose failure raises out of the function (Except.error). -/
def process_files (fileUuid : String → String) (items : List CodeItem)
    (enc : VectorStore.Encoder) (outs : List Bool) :
    Except Unit (Nat × Nat × List CPoint) :=
  let st := embedLoop fileUuid enc outs
    { store := [], buffer := [], processed := 0, errors := 0, k := 0 }
    (chunksOf BATCH_SIZE items)
  if st.buffer.isEmpty then Except.ok (st.processed, st.errors, st.store)
  else if VectorStore.outcomeAt outs st.k then
    Except.ok (st.processed, st.errors, upsertPoints st.store st.buffer)
  else Except.error ()

/-- A Qdrant collection of the code pipeline. -/
structure QCollection where
  points : List CPoint
  vectorDim : Nat
  payloadIndexes : List String
deriving DecidableEq, Repr

/-- The Qdrant server state for the code pipeline: collections by name. -/
abbrev QdrantState := List (String × QCollection)

/-- create_payload_index on a named collection. -/
def addPayloadIndex (s : QdrantState) (name field : String) : QdrantState :=
  s.map (fun c => if c.1 = name then
    (c.1, { c.2 with payloadIndexes := c.2.payloadIndexes ++ [field] }) else c)

/-- init_qdrant of code_embedder.py: when the collection exists it is
deleted if recreate is set (the default, and what main passes) and kept
as is otherwise; a deleted or absent collection is recreated empty with
module and lines payload indexes. -/
def init_qdrant (recreate : Bool) (s : QdrantState) : QdrantState :=
  if s.any (fun c => c.1 = COLLECTION_NAME) ∧ ¬ recreate then s
  else
    let s1 := if s.any (fun c => c.1 = COLLECTION_NAME)
              then s.filter (fun c => c.1 ≠ COLLECTION_NAME) else s
    let s2 := (COLLECTION_NAME,
      ({ points := [], vectorDim := VECTOR_DIM, payloadIndexes := [] } : QCollection)) :: s1
    addPayloadIndex (addPayloadIndex s2 COLLECTION_NAME "module") COLLECTION_NAME "lines"

/-- Collection lookup by name. -/
def findCollection (s : QdrantState) (name : String) : Option QCollection :=
  (s.find? (fun c => c.1 = name)).map Prod.snd

/-- Point lookup by id inside a named collection. -/
def findPoint (s : QdrantState) (name pid : String) : Option CPoint :=
  match findCollection s name with
  | none => none
  | some c => c.points.find? (fun p => p.pid = pid)

end CodeEmbedder

/-! ## The Neo4j graph store

Shared model of the relevant slice of the graph store: a set of node keys
(Page ids for the notion graph, CodeFile paths for the code graph) and a
list of directed, kinded, scored relationships. -/

/-- A directed relationship with its type name and score attribute. -/
structure GEdge where
  src : String
  tgt : String
  kind : String
  score : ℚ
deriving DecidableEq, Repr

/-- The graph store state. -/
structure Graph where
  nodes : List String
  edges : List GEdge
deriving DecidableEq, Repr

/-- Cypher MATCH src MATCH tgt MERGE (src)-[r:SIMILAR_TO]->(tgt)
SET r.score, RETURN count(r): when both endpoints exist, the directed
SIMILAR_TO edge is created if absent and its score refreshed in place if
present, and the returned count is positive; when an endpoint is missing the
MATCH produces no row, nothing is written and the aggregate count is 0. -/
def mergeSimilarTo (g : Graph) (src tgt : String) (score : ℚ) : Graph × Nat :=
  if src ∈ g.nodes ∧ tgt ∈ g.nodes then
    if g.edges.any (fun e => e.src = src ∧ e.tgt = tgt ∧ e.kind = "SIMILAR_TO") then
      ({ g with edges := g.edges.map (fun e =>
          if e.src = src ∧ e.tgt = tgt ∧ e.kind = "SIMILAR_TO"
          then { e with score := score } else e) }, 1)
    else
      ({ g with edges := g.edges ++
          [{ src := src, tgt := tgt, kind := "SIMILAR_TO", score := score }] }, 1)
  else (g, 0)

/-- Cypher MATCH ()-[r:SIMILAR_TO]->() DELETE r. -/
def clearSimilarTo (g : Graph) : Graph :=
  { g with edges := g.edges.filter (fun e => e.kind ≠ "SIMILAR_TO") }

/-- The stats dict of both similarity resolvers. -/
structure SimStats where
  created : Nat
  skipped : Nat
deriving DecidableEq, Repr

/-! ## scripts/similarity_edges.py — the notion similarity resolver -/

namespace SimilarityEdges

/-- Top-K constant of similarity_edges.py. -/
def TOP_K : Nat := 5

/-- A point fetched from the notion collection by the scroll loop, with
its stored vector and its notion_id payload field (defaulting to the empty
string when the payload lacks it). -/
structure NPoint where
  vector : Vec
  notion_id : String
deriving DecidableEq, Repr

/-- One result of a nearest-neighbor query: the candidate's notion_id
payload field and its similarity score. -/
structure NHit where
  notion_id : String
  score : ℚ
deriving DecidableEq, Repr

/-- Python round(score, 3), idealized over the rationals: round to the
nearest multiple of 1/1000 (ties away from zero here; Python breaks float
ties to even, which differs only at exact midpoints).  Computed on the
raw numerator/denominator so that concrete runs evaluate:
round3 x = floor(x * 1000 + 1/2) / 1000. -/
def round3 (x : ℚ) : ℚ :=
  mkRat (mkRat (2 * x.num * 1000 + x.den) (2 * x.den)).floor 1000

/-- The vector index's query_points endpoint as an oracle: given a query
vector and a result limit it returns the ranked hits, or none when the call
raises. -/
abbrev NQuery := Vec → Nat → Option (List NHit)

/-- The inner hits loop of create_similarity_edges (lines 85-109): skip the
pivot itself by notion_id comparison, count sub-threshold candidates as
skipped, and merge a SIMILAR_TO edge with the rounded score for the rest
(counting it as created when the store reports a positive count). -/
def hitsLoop (t : ℚ) (notionId : String) :
    Graph → SimStats → List NHit → Graph × SimStats
  | g, st, [] => (g, st)
  | g, st, h :: hs =>
    if h.notion_id = notionId then hitsLoop t notionId g st hs
    else if h.score < t then
      hitsLoop t notionId g { st with skipped := st.skipped + 1 } hs
    else
      let r := mergeSimilarTo g notionId h.notion_id (round3 h.score)
      hitsLoop t notionId r.1
        (if 0 < r.2 then { st with created := st.created + 1 } else st) hs

/-- The outer loop of create_similarity_edges: points with an empty
notion_id are skipped; for the rest the resolver queries TOP_K + 1
neighbors.  The query call is not wrapped in any try/except, so a raised
query error propagates and aborts the whole pass (Except.error). -/
def pointsLoop (query : NQuery) (t : ℚ) :
    Graph → SimStats → List NPoint → Except Unit (Graph × SimStats)
  | g, st, [] => Except.ok (g, st)
  | g, st, p :: ps =>
    if p.notion_id = "" then pointsLoop query t g st ps
    else
      match query p.vector (TOP_K + 1) with
      | none => Except.error ()
      | some hits =>
        let r := hitsLoop t p.notion_id g st hits
        pointsLoop query t r.1 r.2 ps

/-- create_similarity_edges of similarity_edges.py, from the session on:
clear every existing SIMILAR_TO relationship, then run the per-point loop.
The threshold t models the SIMILARITY_THRESHOLD environment setting
(default 0.75). -/
def create_similarity_edges (g : Graph) (points : List NPoint) (query : NQuery)
    (t : ℚ) : Except Unit (Graph × SimStats) :=
  pointsLoop query t (clearSimilarTo g) { created := 0, skipped := 0 } points

end SimilarityEdges

/-! ## scripts/code_graph_builder.py — code graph nodes and resolver -/

namespace CodeGraphBuilder

/-- Hard-coded similarity constants of code_graph_builder.py:
SIMILARITY_THRESHOLD = 0.75 (written via mkRat so that concrete runs
evaluate inside the kernel). -/
def SIMILARITY_THRESHOLD : ℚ := mkRat 3 4

def TOP_K_SIMILAR : Nat := 10

/-- A CodeFile node as materialized by create_code_nodes. -/
structure CodeNode where
  path : String
  name : String
  module : String
  subpath : String
  lines : Nat
  imports : List String
  classes : List String
  structs : List String
  protocols : List String
deriving DecidableEq, Repr

/-- The node value SET by the MERGE of create_code_nodes for a payload. -/
def codeNodeOf (pl : CodeEmbedder.CodePayload) : CodeNode :=
  { path := pl.relative_path
    name := pl.file_name
    module := pl.module
    subpath := pl.subpath
    lines := pl.lines
    imports := pl.imports
    classes := pl.classes
    structs := pl.structs
    protocols := pl.protocols }

/-- Stats of create_code_nodes: created and error tallies plus the set of
module names seen. -/
structure CodeNodeStats where
  created : Nat
  errors : Nat
  modules : List String
deriving DecidableEq, Repr

/-- Adding to the python module set. -/
def addModule (ms : List String) (m : String) : List String :=
  if m ∈ ms then ms else ms ++ [m]

/-- One iteration of create_code_nodes: MERGE (c:CodeFile {path: $path})
SET all attributes — create-if-absent, else refresh the attributes of the
node with that path. -/
def create_code_node (acc : List CodeNode × CodeNodeStats)
    (p : CodeEmbedder.CPoint) : List CodeNode × CodeNodeStats :=
  let pl := p.payload
  let st := { acc.2 with modules := addModule acc.2.modules pl.module }
  let nodes :=
    if acc.1.any (fun n => n.path = pl.relative_path) then
      acc.1.map (fun n => if n.path = pl.relative_path then codeNodeOf pl else n)
    else acc.1 ++ [codeNodeOf pl]
  (nodes, { st with created := st.created + 1 })

/-- create_code_nodes of code_graph_builder.py over a node store. -/
def create_code_nodes (nodes : List CodeNode) (points : List CodeEmbedder.CPoint) :
    List CodeNode × CodeNodeStats :=
  points.foldl create_code_node (nodes, { created := 0, errors := 0, modules := [] })

/-- The fields of a point the similarity pass of code_graph_builder.py
reads: its Qdrant id, its vector and its relative_path payload field. -/
structure RPoint where
  pid : String
  vector : Vec
  relative_path : String
deriving DecidableEq, Repr

/-- One result of a nearest-neighbor query in the code collection: the
hit's Qdrant id, its relative_path payload field and its score. -/
structure CHit where
  hid : String
  relative_path : String
  score : ℚ
deriving DecidableEq, Repr

/-- The query_points endpoint of the code collection as an oracle. -/
abbrev CQuery := Vec → Nat → Option (List CHit)

/-- The inner hits loop of create_similarity_edges of code_graph_builder.py
(lines 218-241): skip the pivot by point-id comparison, count sub-threshold
candidates as skipped, and merge a SIMILAR_TO edge with the raw score only
when the source path lexicographically precedes the target path. -/
def hitsLoop (pid srcPath : String) :
    Graph → SimStats → List CHit → Graph × SimStats
  | g, st, [] => (g, st)
  | g, st, h :: hs =>
    if h.hid = pid then hitsLoop pid srcPath g st hs
    else if h.score < SIMILARITY_THRESHOLD then
      hitsLoop pid srcPath g { st with skipped := st.skipped + 1 } hs
    else if strLt srcPath h.relative_path then
      let r := mergeSimilarTo g srcPath h.relative_path h.score
      hitsLoop pid srcPath r.1
        (if 0 < r.2 then { st with created := st.created + 1 } else st) hs
    else hitsLoop pid srcPath g st hs

/-- The outer loop of create_similarity_edges of code_graph_builder.py:
the whole per-point body sits inside try/except, so a raised query error is
caught and the point is skipped — nothing is counted — and the pass
continues with the remaining points. -/
def pointsLoop (query : CQuery) :
    Graph → SimStats → List RPoint → Graph × SimStats
  | g, st, [] => (g, st)
  | g, st, p :: ps =>
    match query p.vector (TOP_K_SIMILAR + 1) with
    | none => pointsLoop query g st ps
    | some hits =>
      let r := hitsLoop p.pid p.relative_path g st hits
      pointsLoop query r.1 r.2 ps

/-- create_similarity_edges of code_graph_builder.py: no clearing of prior
SIMILAR_TO relationships happens — the pass starts emitting directly. -/
def create_similarity_edges (g : Graph) (points : List RPoint)
    (query : CQuery) : Graph × SimStats :=
  pointsLoop query g { created := 0, skipped := 0 } points

end CodeGraphBuilder

/-! ## scripts/graph_builder.py — notion page node materialization -/

namespace GraphBuilder

/-- A Page node as materialized by create_page_nodes. -/
structure PageNode where
  id : String
  title : String
  url : String
  wordCount : Nat
  blockCount : Nat
  createdAt : String
  updatedAt : String
  parentId : String
  parentType : String
deriving DecidableEq, Repr

/-- The node value CREATEd by create_page_nodes for a page. -/
def pageNodeOf (p : VectorStore.Page) : PageNode :=
  { id := p.id
    title := p.title
    url := p.url
    wordCount := p.word_count
    blockCount := p.block_count
    createdAt := p.created_time
    updatedAt := p.last_edited_time
    parentId := if p.parent_page_id ≠ "" then p.parent_page_id
                else p.parent_database_id
    parentType := p.parent_type }

/-- Stats of create_page_nodes. -/
structure NodeStats where
  created : Nat
  errors : Nat
deriving DecidableEq, Repr

/-- One iteration of create_page_nodes: a plain CREATE (p:Page {...}) under
the page_id uniqueness constraint installed by create_constraints — creating
a node whose id already exists raises a constraint violation, which the
surrounding try/except catches and counts as an error; the existing node is
left untouched. -/
def create_page_node (acc : List PageNode × NodeStats) (p : VectorStore.Page) :
    List PageNode × NodeStats :=
  if acc.1.any (fun n => n.id = p.id) then
    (acc.1, { acc.2 with errors := acc.2.errors + 1 })
  else
    (acc.1 ++ [pageNodeOf p], { acc.2 with created := acc.2.created + 1 })

/-- create_page_nodes of graph_builder.py over a node store. -/
def create_page_nodes (nodes : List PageNode) (pages : List VectorStore.Page) :
    List PageNode × NodeStats :=
  pages.foldl create_page_node (nodes, { created := 0, errors := 0 })

end GraphBuilder

/-! ## Derived notions used to state the claims -/

namespace SimilarityEdges

/-- The query results for a pivot that survive the identity-based
self-exclusion — exactly the hits the per-hit loop can turn into edges,
before the threshold filter. -/
def candidates (notionId : String) (hits : List NHit) : List NHit :=
  hits.filter (fun h => h.notion_id ≠ notionId)

end SimilarityEdges

namespace CodeGraphBuilder

/-- The query results for a pivot that survive the identity-based
self-exclusion, before the threshold filter. -/
def candidates (pid : String) (hits : List CHit) : List CHit :=
  hits.filter (fun h => h.hid ≠ pid)

end CodeGraphBuilder

namespace VectorStore

/-- The points generated by the embedding loop across the chunk list: for
each chunk whose encode call succeeds, the positional pairing of its pages
with the returned vectors, concatenated in chunk order. -/
def producedFrom (enc : Encoder) : List (List (Page × String)) → List QPoint
  | [] => []
  | c :: cs =>
    match enc (embed_batch_request (c.map Prod.snd)) with
    | none => producedFrom enc cs
    | some vs => List.zipWith page_to_point (c.map Prod.fst) vs ++ producedFrom enc cs

/-- The points a process_pages run generates for a page list. -/
def producedPoints (enc : Encoder) (pages : List Page) : List QPoint :=
  producedFrom enc (chunksOf BATCH_SIZE (validPages pages))

/-- The number of texts lost to failed encode chunks. -/
def droppedCount (enc : Encoder) (pages : List Page) : Nat :=
  (((chunksOf BATCH_SIZE (validPages pages)).filter
    (fun c => (enc (embed_batch_request (c.map Prod.snd))).isNone)).map
      List.length).sum

/-- Error-count projection of a process_pages result. -/
def runErrors : Except Unit (RunStats × List QPoint) → Option Nat
  | Except.ok (st, _) => some st.errors
  | Except.error _ => none

end VectorStore

/-- Edge (source, target) pairs of a notion resolver result. -/
def edgePairs : Except Unit (Graph × SimStats) → List (String × String)
  | Except.ok (g, _) => g.edges.map (fun e => (e.src, e.tgt))
  | Except.error _ => []

/-! ## Concrete fixtures used by counterexamples and witnesses -/

namespace Fixtures

/-- A notion graph with two pages a and b and no edges. -/
def gAB : Graph := { nodes := ["a", "b"], edges := [] }

def pA : SimilarityEdges.NPoint := { vector := [1], notion_id := "a" }

def pB : SimilarityEdges.NPoint := { vector := [2], notion_id := "b" }

/-- A store for which a and b are mutual nearest neighbors with score
9/10 ≥ 3/4; both queries succeed. -/
def qAB : SimilarityEdges.NQuery := fun v _ =>
  if v = [1] then
    some [{ notion_id := "a", score := 1 }, { notion_id := "b", score := mkRat 9 10 }]
  else
    some [{ notion_id := "b", score := 1 }, { notion_id := "a", score := mkRat 9 10 }]

/-- A store whose query raises for point a's vector and succeeds for any
other vector. -/
def qFailA : SimilarityEdges.NQuery := fun v _ =>
  if v = [1] then none else some []

/-- A code graph that already holds one stale SIMILAR_TO edge. -/
def staleEdge : GEdge :=
  { src := "A.swift", tgt := "B.swift", kind := "SIMILAR_TO", score := mkRat 9 10 }

def gStale : Graph := { nodes := ["A.swift", "B.swift"], edges := [staleEdge] }

/-- A code graph with two files and no edges. -/
def gCode : Graph := { nodes := ["A.swift", "B.swift"], edges := [] }

def rA : CodeGraphBuilder.RPoint :=
  { pid := "1", vector := [1], relative_path := "A.swift" }

/-- A code store returning one qualifying non-self neighbor for any query. -/
def qCode : CodeGraphBuilder.CQuery := fun _ _ =>
  some [{ hid := "2", relative_path := "B.swift", score := mkRat 9 10 }]

/-- The edge such a run adds. -/
def eAB : GEdge :=
  { src := "A.swift", tgt := "B.swift", kind := "SIMILAR_TO",
    score := mkRat 9 10 }

/-- A notion graph with a pivot p and six neighbor pages. -/
def gSeven : Graph :=
  { nodes := ["p", "n1", "n2", "n3", "n4", "n5", "n6"], edges := [] }

/-- Six qualifying hits, none of which is the pivot p: a legal result of a
query with limit TOP_K + 1 = 6 in which the pivot itself does not appear. -/
def hitsSix : List SimilarityEdges.NHit :=
  [{ notion_id := "n1", score := mkRat 9 10 }, { notion_id := "n2", score := mkRat 9 10 },
   { notion_id := "n3", score := mkRat 9 10 }, { notion_id := "n4", score := mkRat 9 10 },
   { notion_id := "n5", score := mkRat 9 10 }, { notion_id := "n6", score := mkRat 9 10 }]

/-- A page record builder for the writer fixtures. -/
def mkPage (id title content : String) : VectorStore.Page :=
  { id := id, title := title, content := content, url := "",
    created_time := "", last_edited_time := "", word_count := 0,
    block_count := 0, parent_page_id := "", parent_database_id := "",
    parent_type := "", tags := [], links := [] }

def pageT1 : VectorStore.Page := mkPage "p1" "t1" "body"

/-- The same page id as pageT1 with a changed title. -/
def pageT2 : VectorStore.Page := mkPage "p1" "t2" "body"

/-- A code point fixture builder. -/
def mkCPoint (path name : String) : CodeEmbedder.CPoint :=
  { pid := path, vector := [1],
    payload := { file_name := name, module := "M", subpath := "",
                 relative_path := path, lines := 1, imports := [],
                 classes := [], structs := [], protocols := [],
                 content_preview := "" } }

def cptV1 : CodeEmbedder.CPoint := mkCPoint "A.swift" "A"

/-- The same path as cptV1 with a changed file name attribute. -/
def cptV2 : CodeEmbedder.CPoint := mkCPoint "A.swift" "A2"

/-- Four pages with non-blank text: one full embedding chunk. -/
def pages4 : List VectorStore.Page :=
  [mkPage "w" "tw" "c", mkPage "x" "tx" "c", mkPage "y" "ty" "c",
   mkPage "z" "tz" "c"]

/-- Five pages with non-blank text: chunks of sizes 4 and 1. -/
def pages5 : List VectorStore.Page := pages4 ++ [mkPage "v" "tv" "c"]

/-- An encoder that always succeeds, answering one one-entry vector per
text. -/
def encOK : VectorStore.Encoder := fun r => some (r.texts.map (fun _ => [1]))

/-- An encoder that raises exactly on single-text chunks and succeeds
otherwise. -/
def encFailShort : VectorStore.Encoder := fun r =>
  if r.texts.length = 1 then none else some (r.texts.map (fun _ => [1]))

/-- A notion writer state holding one buffered point before its first
upsert call. -/
def wst1 : VectorStore.WState :=
  { store := [], buffer := [VectorStore.page_to_point (mkPage "w" "tw" "c") [1]],
    processed := 1, errors := 0, k := 0 }

/-- A code writer state holding one buffered point before its first upsert
call. -/
def cwst1 : CodeEmbedder.WState :=
  { store := [], buffer := [cptV1], processed := 1, errors := 0, k := 0 }

/-- A code item fixture builder. -/
def mkItem (path name : String) : CodeEmbedder.CodeItem :=
  { content := "class A {}",
    meta := { file_name := name, module := "M", subpath := "",
              relative_path := path, imports := [], classes := ["A"],
              structs := [], protocols := [] },
    text := "File: " ++ name ++ "\x0a" ++ "Module: M" }

/-- Four code items: one full embedding chunk, below the flush size. -/
def items4 : List CodeEmbedder.CodeItem :=
  [mkItem "A.swift" "A", mkItem "B.swift" "B", mkItem "C.swift" "C",
   mkItem "D.swift" "D"]

end Fixtures

/-! ## Helper lemmas -/

theorem chunksOf_nil (B : Nat) : chunksOf B ([] : List α) = [] := rfl

/-- The worker is insensitive to the amount of fuel, as long as it covers
the list length. -/
theorem chunksOfAux_congr (B : Nat) :
    ∀ (fuel1 fuel2 : Nat) (l : List α), l.length ≤ fuel1 → l.length ≤ fuel2 →
      chunksOfAux B fuel1 l = chunksOfAux B fuel2 l := by
  intro fuel1
  induction fuel1 with
  | zero =>
    intro fuel2 l h1 h2
    cases l with
    | nil => cases fuel2 <;> rfl
    | cons a l => simp at h1
  | succ f1 ih =>
    intro fuel2 l h1 h2
    cases l with
    | nil => cases fuel2 <;> rfl
    | cons a l =>
      cases fuel2 with
      | zero => simp at h2
      | succ f2 =>
        show (a :: l).take B :: chunksOfAux B f1 (l.drop (B - 1))
          = (a :: l).take B :: chunksOfAux B f2 (l.drop (B - 1))
        have hd : (l.drop (B - 1)).length ≤ l.length := by
          simp [List.length_drop]
        rw [ih f2 (l.drop (B - 1)) (by simp at h1; omega) (by simp at h2; omega)]

theorem chunksOf_cons (B : Nat) (a : α) (l : List α) :
    chunksOf B (a :: l) = (a :: l).take B :: chunksOf B (l.drop (B - 1)) := by
  show (a :: l).take B :: chunksOfAux B l.length (l.drop (B - 1))
    = (a :: l).take B :: chunksOfAux B (l.drop (B - 1)).length (l.drop (B - 1))
  rw [chunksOfAux_congr B l.length (l.drop (B - 1)).length (l.drop (B - 1))
    (by simp [List.length_drop]) le_rfl]

/-- Every chunk has size at most B. -/
theorem chunksOf_length_le (B : Nat) (l : List α) :
    ∀ c ∈ chunksOf B l, c.length ≤ B := by
  have aux : ∀ (fuel : Nat) (l : List α), ∀ c ∈ chunksOfAux B fuel l,
      c.length ≤ B := by
    intro fuel
    induction fuel with
    | zero =>
      intro l c hc
      cases l <;> simp [chunksOfAux] at hc
    | succ f ih =>
      intro l c hc
      cases l with
      | nil => simp [chunksOfAux] at hc
      | cons a l =>
        rw [show chunksOfAux B (f + 1) (a :: l)
            = (a :: l).take B :: chunksOfAux B f (l.drop (B - 1)) from rfl,
          List.mem_cons] at hc
        rcases hc with hc | hc
        · subst hc; simp [List.length_take_le B (a :: l)]
        · exact ih (l.drop (B - 1)) c hc
  exact aux l.length l

/-- For positive B the chunks concatenate back to the input list. -/
theorem chunksOf_flatten (B : Nat) (hB : 1 ≤ B) (l : List α) :
    (chunksOf B l).flatten = l := by
  have aux : ∀ (fuel : Nat) (l : List α), l.length ≤ fuel →
      (chunksOfAux B fuel l).flatten = l := by
    intro fuel
    induction fuel with
    | zero =>
      intro l hl
      cases l with
      | nil => rfl
      | cons a l => simp at hl
    | succ f ih =>
      intro l hl
      cases l with
      | nil => rfl
      | cons a l =>
        rw [show chunksOfAux B (f + 1) (a :: l)
            = (a :: l).take B :: chunksOfAux B f (l.drop (B - 1)) from rfl]
        simp only [List.flatten_cons]
        rw [ih (l.drop (B - 1)) (by simp [List.length_drop] at hl ⊢; omega)]
        have h : (a :: l).drop B = l.drop (B - 1) := by
          cases B with
          | zero => omega
          | succ B => simp
        rw [← h, List.take_append_drop]
  exact aux l.length l le_rfl

theorem VectorStore.upsertPoints_append (ps a b : List VectorStore.QPoint) :
    VectorStore.upsertPoints ps (a ++ b)
      = VectorStore.upsertPoints (VectorStore.upsertPoints ps a) b :=
  List.foldl_append ..

theorem VectorStore.outcomeAt_all_true (outs : List Bool)
    (h : ∀ b ∈ outs, b = true) (k : Nat) :
    VectorStore.outcomeAt outs k = true := by
  unfold VectorStore.outcomeAt
  rcases lt_or_ge k outs.length with hk | hk
  · rw [List.getD_eq_getElem outs true hk]; exact h _ (outs.getElem_mem hk)
  · exact List.getD_eq_default outs true hk

/-! ## C10 — runs start from a freshly recreated, empty collection -/

/-- C10: every run of the embedding pipelines begins (via init_qdrant,
called by main before any processing, with recreate = true in the default
configuration of the code pipeline) by deleting the vector collection if it
exists and recreating it empty, so no point of an earlier run survives:
after init_qdrant the collection exists with an empty point list, and
looking up any point id in it yields none — the deterministic-id upsert
path can therefore only insert, never update a point persisted earlier. -/
theorem C10_init_recreates_empty_collection (s : VectorStore.QdrantState)
    (sc : CodeEmbedder.QdrantState) (pid : String) :
    (VectorStore.findCollection (VectorStore.init_qdrant s)
        VectorStore.COLLECTION_NAME).map VectorStore.QCollection.points = some []
    ∧ VectorStore.findPoint (VectorStore.init_qdrant s)
        VectorStore.COLLECTION_NAME pid = none
    ∧ (CodeEmbedder.findCollection (CodeEmbedder.init_qdrant true sc)
        CodeEmbedder.COLLECTION_NAME).map CodeEmbedder.QCollection.points = some []
    ∧ CodeEmbedder.findPoint (CodeEmbedder.init_qdrant true sc)
        CodeEmbedder.COLLECTION_NAME pid = none := by
  refine ⟨?_, ?_, ?_, ?_⟩ <;>
    simp [VectorStore.init_qdrant, CodeEmbedder.init_qdrant,
      VectorStore.findCollection, CodeEmbedder.findCollection,
      VectorStore.findPoint, CodeEmbedder.findPoint,
      VectorStore.addPayloadIndex, CodeEmbedder.addPayloadIndex,
      List.find?_cons]

/-! ## C6 — clearing of prior SIMILAR_TO edges -/

/-- C6 counterexample: the code-graph resolver
(code_graph_builder.create_similarity_edges) never clears prior SIMILAR_TO
edges.  Running a full resolution pass (here: over an empty point set, so
the pass emits nothing) on a graph holding a stale SIMILAR_TO edge leaves
that edge in place with its outdated score, contradicting the claim that
prior similarity edges of the same kind are cleared before any new pass. -/
theorem C6_counterexample :
    (CodeGraphBuilder.create_similarity_edges Fixtures.gStale []
        (fun _ _ => some [])).1.edges = [Fixtures.staleEdge]
    ∧ Fixtures.staleEdge.kind = "SIMILAR_TO" := by
  constructor
  · rfl
  · rfl

/-- C6 as amended: only the notion resolver
(similarity_edges.create_similarity_edges) clears prior SIMILAR_TO edges.
Its session begins with MATCH ()-[r:SIMILAR_TO]->() DELETE r, so its result
is the same as if it had started from the cleared graph, and a pass over an
empty point set leaves exactly the non-SIMILAR_TO edges; the code-graph
resolver performs no such clearing (see the counterexample). -/
theorem C6_notion_resolver_replaces_prior_edges (g : Graph)
    (points : List SimilarityEdges.NPoint) (query : SimilarityEdges.NQuery)
    (t : ℚ) :
    SimilarityEdges.create_similarity_edges g points query t
      = SimilarityEdges.create_similarity_edges (clearSimilarTo g) points query t
    ∧ SimilarityEdges.create_similarity_edges g [] query t
      = Except.ok (clearSimilarTo g, { created := 0, skipped := 0 }) := by
  constructor
  · unfold SimilarityEdges.create_similarity_edges
    have h : clearSimilarTo (clearSimilarTo g) = clearSimilarTo g := by
      unfold clearSimilarTo
      simp [List.filter_filter]
    rw [h]
  · rfl

/-- Any edge present after a MERGE is either an untouched prior edge or
carries exactly the merged endpoints, kind and score. -/
theorem mergeSimilarTo_mem (g : Graph) (src tgt : String) (sc : ℚ) :
    ∀ e ∈ (mergeSimilarTo g src tgt sc).1.edges,
      e ∈ g.edges
      ∨ (e.src = src ∧ e.tgt = tgt ∧ e.kind = "SIMILAR_TO" ∧ e.score = sc) := by
  intro e he
  unfold mergeSimilarTo at he
  split at he
  · split at he
    · simp only [List.mem_map] at he
      obtain ⟨x, hx, hxe⟩ := he
      by_cases hm : x.src = src ∧ x.tgt = tgt ∧ x.kind = "SIMILAR_TO"
      · rw [if_pos hm] at hxe
        subst hxe
        exact Or.inr ⟨hm.1, hm.2.1, hm.2.2, rfl⟩
      · rw [if_neg hm] at hxe
        subst hxe
        exact Or.inl hx
    · simp only [List.mem_append, List.mem_singleton] at he
      rcases he with h | h
      · exact Or.inl h
      · subst h; exact Or.inr ⟨rfl, rfl, rfl, rfl⟩
  · exact Or.inl he

/-- A MERGE grows the edge list by at most one edge. -/
theorem mergeSimilarTo_length (g : Graph) (src tgt : String) (sc : ℚ) :
    (mergeSimilarTo g src tgt sc).1.edges.length ≤ g.edges.length + 1 := by
  unfold mergeSimilarTo
  split
  · split
    · simp
    · simp
  · simp

/-- Asymmetry of the code-point lexicographic order. -/
theorem strLtB_asymm : ∀ x y : List Char, strLtB x y = true → strLtB y x = false := by
  intro x
  induction x with
  | nil =>
    intro y h
    cases y with
    | nil => simp [strLtB] at h
    | cons b bs => simp [strLtB]
  | cons a as ih =>
    intro y h
    cases y with
    | nil => simp [strLtB] at h
    | cons b bs =>
      by_cases hab : a.toNat < b.toNat
      · have hba : ¬ b.toNat < a.toNat := by omega
        simp [strLtB, hab, hba]
      · by_cases hba : b.toNat < a.toNat
        · simp [strLtB, hab, hba] at h
        · simp [strLtB, hab, hba] at h ⊢
          exact ih bs h

/-- Asymmetry of the Python string order. -/
theorem strLt_asymm (a b : String) (h : strLt a b = true) : strLt b a = false :=
  strLtB_asymm a.toList b.toList h

/-- Edge-shape invariant of the code-graph hits loop: every edge present
after processing a hit list is a prior edge, or is a SIMILAR_TO edge whose
source path lexicographically precedes its target path and whose score
meets the threshold. -/
theorem CodeGraphBuilder.codeHitsLoop_mem (pid srcPath : String)
    (hits : List CodeGraphBuilder.CHit) :
    ∀ g st, ∀ e ∈ (CodeGraphBuilder.hitsLoop pid srcPath g st hits).1.edges,
      e ∈ g.edges
      ∨ (e.kind = "SIMILAR_TO" ∧ strLt e.src e.tgt = true
          ∧ CodeGraphBuilder.SIMILARITY_THRESHOLD ≤ e.score) := by
  induction hits with
  | nil => intro g st e he; exact Or.inl he
  | cons h hs ih =>
    intro g st e he
    unfold CodeGraphBuilder.hitsLoop at he
    by_cases h1 : h.hid = pid
    · rw [if_pos h1] at he
      exact ih g st e he
    rw [if_neg h1] at he
    by_cases h2 : h.score < CodeGraphBuilder.SIMILARITY_THRESHOLD
    · rw [if_pos h2] at he
      exact ih g _ e he
    rw [if_neg h2] at he
    by_cases h3 : strLt srcPath h.relative_path = true
    · rw [if_pos h3] at he
      rcases ih _ _ e he with hmem | hmem
      · rcases mergeSimilarTo_mem _ _ _ _ e hmem with hg | hnew
        · exact Or.inl hg
        · refine Or.inr ⟨hnew.2.2.1, ?_, ?_⟩
          · rw [hnew.1, hnew.2.1]; exact h3
          · rw [hnew.2.2.2]; exact le_of_not_lt h2
      · exact Or.inr hmem
    · rw [if_neg h3] at he
      exact ih g st e he

/-- Edge-shape invariant of the code-graph per-point loop. -/
theorem CodeGraphBuilder.pointsLoop_mem (query : CodeGraphBuilder.CQuery)
    (points : List CodeGraphBuilder.RPoint) :
    ∀ g st, ∀ e ∈ (CodeGraphBuilder.pointsLoop query g st points).1.edges,
      e ∈ g.edges
      ∨ (e.kind = "SIMILAR_TO" ∧ strLt e.src e.tgt = true
          ∧ CodeGraphBuilder.SIMILARITY_THRESHOLD ≤ e.score) := by
  induction points with
  | nil => intro g st e he; exact Or.inl he
  | cons p ps ih =>
    intro g st e he
    unfold CodeGraphBuilder.pointsLoop at he
    rcases hq : query p.vector (CodeGraphBuilder.TOP_K_SIMILAR + 1) with _ | hits
    · rw [hq] at he
      exact ih g st e he
    · rw [hq] at he
      have h1 := ih _ _ e he
      rcases h1 with h1 | h1
      · exact CodeGraphBuilder.codeHitsLoop_mem p.pid p.relative_path hits g st e h1
      · exact Or.inr h1

/-! ## C1 — symmetry breaking of similarity edges -/

/-- C1 counterexample: the notion resolver
(similarity_edges.create_similarity_edges) has no lexicographic
symmetry-breaking rule at all.  With two pages a, b that are mutual
neighbors above threshold, a full pass emits BOTH directed edges
(a, b) and (b, a): the opposite direction is not suppressed. -/
theorem C1_counterexample :
    edgePairs (SimilarityEdges.create_similarity_edges Fixtures.gAB
        [Fixtures.pA, Fixtures.pB] Fixtures.qAB (mkRat 3 4))
      = [("a", "b"), ("b", "a")] := by
  decide

/-- C1 as amended: only the code-graph resolver
(code_graph_builder.create_similarity_edges) applies the lexicographic
rule.  There, every edge the pass adds is a SIMILAR_TO edge whose source
path strictly precedes its target path in lexicographic string order, and
consequently the pass never adds both directions of an unordered pair; the
notion resolver emits both directions (see the counterexample). -/
theorem C1_code_resolver_lexicographic_direction (g : Graph)
    (points : List CodeGraphBuilder.RPoint) (query : CodeGraphBuilder.CQuery) :
    (∀ e ∈ (CodeGraphBuilder.create_similarity_edges g points query).1.edges,
        e ∈ g.edges ∨ (e.kind = "SIMILAR_TO" ∧ strLt e.src e.tgt = true))
    ∧ (∀ e1 ∈ (CodeGraphBuilder.create_similarity_edges g points query).1.edges,
       ∀ e2 ∈ (CodeGraphBuilder.create_similarity_edges g points query).1.edges,
        e1 ∉ g.edges → e2 ∉ g.edges →
        e1.src = e2.tgt → e1.tgt = e2.src → False) := by
  have key := CodeGraphBuilder.pointsLoop_mem query points g
    { created := 0, skipped := 0 }
  constructor
  · intro e he
    rcases key e he with h | h
    · exact Or.inl h
    · exact Or.inr ⟨h.1, h.2.1⟩
  · intro e1 he1 e2 he2 hn1 hn2 hst hts
    rcases key e1 he1 with h1 | h1
    · exact hn1 h1
    rcases key e2 he2 with h2 | h2
    · exact hn2 h2
    have hlt1 : strLt e1.src e1.tgt = true := h1.2.1
    have hlt2 : strLt e2.src e2.tgt = true := h2.2.1
    rw [← hst, ← hts] at hlt2
    rw [strLt_asymm e1.tgt e1.src hlt2] at hlt1
    exact Bool.false_ne_true hlt1

/-- C1 witness: the amended direction invariant evaluated on a concrete
run that adds the edge (A.swift, B.swift). -/
theorem C1_code_resolver_lexicographic_direction_witness :
    Fixtures.eAB ∈ Fixtures.gCode.edges
    ∨ (Fixtures.eAB.kind = "SIMILAR_TO"
        ∧ strLt Fixtures.eAB.src Fixtures.eAB.tgt = true) :=
  (C1_code_resolver_lexicographic_direction Fixtures.gCode [Fixtures.rA]
    Fixtures.qCode).1 _ (by decide)

/-! ## C5 — failed neighbor queries -/

/-- C5 counterexample: in the notion resolver the nearest-neighbor query is
not wrapped in any try/except.  With a store whose query raises for the
first point, the whole resolution pass aborts (the exception propagates out
of create_similarity_edges); the failure is neither counted nor skipped and
the second point is never processed. -/
theorem C5_counterexample :
    SimilarityEdges.create_similarity_edges Fixtures.gAB
        [Fixtures.pA, Fixtures.pB] Fixtures.qFailA (mkRat 3 4)
      = Except.error () := by
  rfl

/-- C5 as amended: in the code-graph resolver the per-point body is inside
try/except, so a raised neighbor query for one point only skips that point
— without incrementing any counter — and the pass continues with the
remaining points; in the notion resolver the query is unguarded, and a
raised query for a point with a non-empty notion_id aborts the whole pass. -/
theorem C5_query_failure_skips_or_aborts (query : CodeGraphBuilder.CQuery)
    (p : CodeGraphBuilder.RPoint) (ps : List CodeGraphBuilder.RPoint)
    (g : Graph) (st : SimStats) (nquery : SimilarityEdges.NQuery)
    (np : SimilarityEdges.NPoint) (nps : List SimilarityEdges.NPoint)
    (g2 : Graph) (st2 : SimStats) (t : ℚ)
    (hq : query p.vector (CodeGraphBuilder.TOP_K_SIMILAR + 1) = none)
    (hid : np.notion_id ≠ "")
    (hnq : nquery np.vector (SimilarityEdges.TOP_K + 1) = none) :
    CodeGraphBuilder.pointsLoop query g st (p :: ps)
      = CodeGraphBuilder.pointsLoop query g st ps
    ∧ SimilarityEdges.pointsLoop nquery t g2 st2 (np :: nps)
      = Except.error () := by
  constructor
  · have step : CodeGraphBuilder.pointsLoop query g st (p :: ps)
        = match query p.vector (CodeGraphBuilder.TOP_K_SIMILAR + 1) with
          | none => CodeGraphBuilder.pointsLoop query g st ps
          | some hits =>
            let r := CodeGraphBuilder.hitsLoop p.pid p.relative_path g st hits
            CodeGraphBuilder.pointsLoop query r.1 r.2 ps := rfl
    rw [step, hq]
  · have step : SimilarityEdges.pointsLoop nquery t g2 st2 (np :: nps)
        = if np.notion_id = "" then SimilarityEdges.pointsLoop nquery t g2 st2 nps
          else
            match nquery np.vector (SimilarityEdges.TOP_K + 1) with
            | none => Except.error ()
            | some hits =>
              let r := SimilarityEdges.hitsLoop t np.notion_id g2 st2 hits
              SimilarityEdges.pointsLoop nquery t r.1 r.2 nps := rfl
    rw [step, if_neg hid, hnq]

/-- C5 witness: the amended behavior evaluated on concrete stores that
raise on the first query. -/
theorem C5_query_failure_skips_or_aborts_witness :
    CodeGraphBuilder.pointsLoop (fun _ _ => none) Fixtures.gCode
        { created := 0, skipped := 0 } [Fixtures.rA]
      = CodeGraphBuilder.pointsLoop (fun _ _ => none) Fixtures.gCode
        { created := 0, skipped := 0 } []
    ∧ SimilarityEdges.pointsLoop Fixtures.qFailA (mkRat 3 4) Fixtures.gAB
        { created := 0, skipped := 0 } [Fixtures.pA, Fixtures.pB]
      = Except.error () :=
  C5_query_failure_skips_or_aborts (fun _ _ => none) Fixtures.rA []
    Fixtures.gCode { created := 0, skipped := 0 } Fixtures.qFailA
    Fixtures.pA [Fixtures.pB] Fixtures.gAB { created := 0, skipped := 0 }
    (mkRat 3 4) rfl (by decide) rfl

/-- A list with a member failing the filter predicate loses at least one
element when filtered. -/
theorem length_filter_lt_of_mem_not {α} (p : α → Bool) (l : List α)
    (x : α) (hx : x ∈ l) (hpx : p x = false) :
    (l.filter p).length + 1 ≤ l.length := by
  induction l with
  | nil => cases hx
  | cons a as ih =>
    rcases List.mem_cons.mp hx with rfl | hx
    · rw [List.filter_cons, hpx]
      simp only [Bool.false_eq_true, if_false, List.length_cons]
      have := List.length_filter_le p as
      omega
    · rw [List.filter_cons]
      cases hpa : p a
      · simp only [Bool.false_eq_true, if_false, List.length_cons]
        have := ih hx
        omega
      · simp only [if_true, List.length_cons]
        have := ih hx
        omega

/-- The notion hits loop grows the edge list by at most one edge per
candidate surviving the self-exclusion. -/
theorem SimilarityEdges.notionHitsLoop_edges_length (t : ℚ) (notionId : String)
    (hits : List SimilarityEdges.NHit) :
    ∀ g st, (SimilarityEdges.hitsLoop t notionId g st hits).1.edges.length
      ≤ g.edges.length + (SimilarityEdges.candidates notionId hits).length := by
  induction hits with
  | nil =>
    intro g st
    simp [SimilarityEdges.hitsLoop, SimilarityEdges.candidates]
  | cons h hs ih =>
    intro g st
    unfold SimilarityEdges.hitsLoop
    by_cases h1 : h.notion_id = notionId
    · rw [if_pos h1]
      have hc : SimilarityEdges.candidates notionId (h :: hs)
          = SimilarityEdges.candidates notionId hs := by
        simp [SimilarityEdges.candidates, List.filter_cons, h1]
      rw [hc]
      exact ih g st
    rw [if_neg h1]
    have hc : SimilarityEdges.candidates notionId (h :: hs)
        = h :: SimilarityEdges.candidates notionId hs := by
      simp [SimilarityEdges.candidates, List.filter_cons, h1]
    rw [hc]
    by_cases h2 : h.score < t
    · rw [if_pos h2]
      have := ih g { st with skipped := st.skipped + 1 }
      simp only [List.length_cons]
      omega
    rw [if_neg h2]
    have hm := mergeSimilarTo_length g notionId h.notion_id
      (SimilarityEdges.round3 h.score)
    refine le_trans (ih _ _) ?_
    simp only [List.length_cons]
    omega

/-- The code-graph hits loop grows the edge list by at most one edge per
candidate surviving the self-exclusion. -/
theorem CodeGraphBuilder.codeHitsLoop_edges_length (pid srcPath : String)
    (chits : List CodeGraphBuilder.CHit) :
    ∀ g st, (CodeGraphBuilder.hitsLoop pid srcPath g st chits).1.edges.length
      ≤ g.edges.length + (CodeGraphBuilder.candidates pid chits).length := by
  induction chits with
  | nil =>
    intro g st
    simp [CodeGraphBuilder.hitsLoop, CodeGraphBuilder.candidates]
  | cons h hs ih =>
    intro g st
    unfold CodeGraphBuilder.hitsLoop
    by_cases h1 : h.hid = pid
    · rw [if_pos h1]
      have hc : CodeGraphBuilder.candidates pid (h :: hs)
          = CodeGraphBuilder.candidates pid hs := by
        simp [CodeGraphBuilder.candidates, List.filter_cons, h1]
      rw [hc]
      exact ih g st
    rw [if_neg h1]
    have hc : CodeGraphBuilder.candidates pid (h :: hs)
        = h :: CodeGraphBuilder.candidates pid hs := by
      simp [CodeGraphBuilder.candidates, List.filter_cons, h1]
    rw [hc]
    by_cases h2 : h.score < CodeGraphBuilder.SIMILARITY_THRESHOLD
    · rw [if_pos h2]
      have := ih g { st with skipped := st.skipped + 1 }
      simp only [List.length_cons]
      omega
    rw [if_neg h2]
    by_cases h3 : strLt srcPath h.relative_path = true
    · rw [if_pos h3]
      have hm := mergeSimilarTo_length g srcPath h.relative_path h.score
      refine le_trans (ih _ _) ?_
      simp only [List.length_cons]
      omega
    · rw [if_neg h3]
      have := ih g st
      simp only [List.length_cons]
      omega

/-! ## C8 — per-pivot neighborhood bound -/

/-- C8 counterexample: the resolver requests TOP_K + 1 = 6 results; when
the pivot is NOT among the returned hits, all six survive the identity
self-exclusion, and here all six become edges — so six, not at most
K = five, edges originate from one pivot's neighborhood evaluation. -/
theorem C8_counterexample :
    Fixtures.hitsSix.length ≤ SimilarityEdges.TOP_K + 1
    ∧ (SimilarityEdges.candidates "p" Fixtures.hitsSix).length
        = SimilarityEdges.TOP_K + 1
    ∧ (SimilarityEdges.hitsLoop (mkRat 3 4) "p" Fixtures.gSeven
        { created := 0, skipped := 0 } Fixtures.hitsSix).1.edges.length
        = SimilarityEdges.TOP_K + 1 := by
  refine ⟨by decide, by decide, by decide⟩

/-- C8 as amended: both resolvers request top_k + 1 results and exclude the
pivot by identity comparison (never by score).  When the store honors the
limit, at most top_k + 1 candidates survive the self-exclusion — at most
top_k when the pivot is among the results — and the number of edges a
pivot's evaluation adds is bounded by its candidate count, so the at-most-K
bound only holds when the pivot itself is returned. -/
theorem C8_topk_neighborhood_bound (notionId : String)
    (hits : List SimilarityEdges.NHit) (pid srcPath : String)
    (chits : List CodeGraphBuilder.CHit) (g g2 : Graph) (st st2 : SimStats)
    (t : ℚ) (hlim : hits.length ≤ SimilarityEdges.TOP_K + 1)
    (hclim : chits.length ≤ CodeGraphBuilder.TOP_K_SIMILAR + 1) :
    (SimilarityEdges.candidates notionId hits).length
        ≤ SimilarityEdges.TOP_K + 1
    ∧ ((∃ h ∈ hits, h.notion_id = notionId) →
        (SimilarityEdges.candidates notionId hits).length
          ≤ SimilarityEdges.TOP_K)
    ∧ (SimilarityEdges.hitsLoop t notionId g st hits).1.edges.length
        ≤ g.edges.length + (SimilarityEdges.candidates notionId hits).length
    ∧ (CodeGraphBuilder.candidates pid chits).length
        ≤ CodeGraphBuilder.TOP_K_SIMILAR + 1
    ∧ ((∃ h ∈ chits, h.hid = pid) →
        (CodeGraphBuilder.candidates pid chits).length
          ≤ CodeGraphBuilder.TOP_K_SIMILAR)
    ∧ (CodeGraphBuilder.hitsLoop pid srcPath g2 st2 chits).1.edges.length
        ≤ g2.edges.length + (CodeGraphBuilder.candidates pid chits).length := by
  refine ⟨?_, ?_, SimilarityEdges.notionHitsLoop_edges_length t notionId hits g st,
    ?_, ?_, CodeGraphBuilder.codeHitsLoop_edges_length pid srcPath chits g2 st2⟩
  · exact le_trans (List.length_filter_le _ hits) hlim
  · rintro ⟨h0, hmem, hself⟩
    have := length_filter_lt_of_mem_not
      (fun h => decide (h.notion_id ≠ notionId)) hits h0 hmem (by simp [hself])
    unfold SimilarityEdges.candidates
    omega
  · exact le_trans (List.length_filter_le _ chits) hclim
  · rintro ⟨h0, hmem, hself⟩
    have := length_filter_lt_of_mem_not
      (fun h => decide (h.hid ≠ pid)) chits h0 hmem (by simp [hself])
    unfold CodeGraphBuilder.candidates
    omega

/-- C8 witness: the amended bounds evaluated on a concrete hit list that
does contain the pivot. -/
theorem C8_topk_neighborhood_bound_witness :
    (SimilarityEdges.candidates "a"
        [{ notion_id := "a", score := 1 }, { notion_id := "b", score := 1 }]).length
      ≤ SimilarityEdges.TOP_K + 1
    ∧ ((∃ h ∈ [({ notion_id := "a", score := 1 } : SimilarityEdges.NHit),
          { notion_id := "b", score := 1 }], h.notion_id = "a") →
        (SimilarityEdges.candidates "a"
          [{ notion_id := "a", score := 1 }, { notion_id := "b", score := 1 }]).length
          ≤ SimilarityEdges.TOP_K)
    ∧ (SimilarityEdges.hitsLoop 1 "a" Fixtures.gAB { created := 0, skipped := 0 }
        [{ notion_id := "a", score := 1 }, { notion_id := "b", score := 1 }]).1.edges.length
        ≤ Fixtures.gAB.edges.length
          + (SimilarityEdges.candidates "a"
              [{ notion_id := "a", score := 1 }, { notion_id := "b", score := 1 }]).length
    ∧ (CodeGraphBuilder.candidates "1" []).length
        ≤ CodeGraphBuilder.TOP_K_SIMILAR + 1
    ∧ ((∃ h ∈ ([] : List CodeGraphBuilder.CHit), h.hid = "1") →
        (CodeGraphBuilder.candidates "1" []).length
          ≤ CodeGraphBuilder.TOP_K_SIMILAR)
    ∧ (CodeGraphBuilder.hitsLoop "1" "A.swift" Fixtures.gCode
        { created := 0, skipped := 0 } []).1.edges.length
        ≤ Fixtures.gCode.edges.length
          + (CodeGraphBuilder.candidates "1" []).length :=
  C8_topk_neighborhood_bound "a"
    [{ notion_id := "a", score := 1 }, { notion_id := "b", score := 1 }]
    "1" "A.swift" [] Fixtures.gAB Fixtures.gCode
    { created := 0, skipped := 0 } { created := 0, skipped := 0 } 1
    (by decide) (by decide)

/-- round3 agrees with floor-based rounding to the nearest 1/1000. -/
theorem SimilarityEdges.round3_eq (x : ℚ) :
    SimilarityEdges.round3 x = ((⌊x * 1000 + 1 / 2⌋ : ℤ) : ℚ) / 1000 := by
  have hd : ((x.den : ℚ)) ≠ 0 := by
    have := x.den_nz
    exact_mod_cast this
  have hx2 : (x.num : ℚ) = x * (x.den : ℚ) :=
    (div_eq_iff hd).mp (Rat.num_div_den x)
  have key : mkRat (2 * x.num * 1000 + (x.den : ℤ)) (2 * x.den)
      = x * 1000 + 1 / 2 := by
    rw [Rat.mkRat_eq_div]
    rw [div_eq_iff (by positivity : ((2 * x.den : ℕ) : ℚ) ≠ 0)]
    push_cast
    rw [hx2]
    ring
  unfold SimilarityEdges.round3
  rw [Rat.mkRat_eq_div]
  have hfl : (mkRat (2 * x.num * 1000 + (x.den : ℤ)) (2 * x.den)).floor
      = ⌊mkRat (2 * x.num * 1000 + (x.den : ℤ)) (2 * x.den)⌋ := rfl
  rw [hfl, key]
  norm_num

/-- When the threshold is a whole multiple of 1/1000 — as the default
0.75 = 750/1000 is — rounding a score to three decimals cannot take it
below the threshold. -/
theorem SimilarityEdges.round3_preserves_ge (t x : ℚ) (n : ℤ)
    (ht : t * 1000 = (n : ℚ)) (hx : t ≤ x) :
    t ≤ SimilarityEdges.round3 x := by
  rw [SimilarityEdges.round3_eq,
    le_div_iff₀ (by norm_num : (0 : ℚ) < 1000), ht]
  have h1 : (n : ℚ) ≤ x * 1000 + 1 / 2 := by linarith
  have h2 : n ≤ ⌊x * 1000 + 1 / 2⌋ := Int.le_floor.mpr h1
  exact_mod_cast h2

/-- Edge-shape invariant of the notion hits loop: every edge present after
processing a hit list is a prior edge or carries the rounded score of some
hit that passed the threshold test. -/
theorem SimilarityEdges.notionHitsLoop_mem (t : ℚ) (notionId : String)
    (hits : List SimilarityEdges.NHit) :
    ∀ g st, ∀ e ∈ (SimilarityEdges.hitsLoop t notionId g st hits).1.edges,
      e ∈ g.edges
      ∨ ∃ s : ℚ, ¬ s < t ∧ e.score = SimilarityEdges.round3 s := by
  induction hits with
  | nil => intro g st e he; exact Or.inl he
  | cons h hs ih =>
    intro g st e he
    unfold SimilarityEdges.hitsLoop at he
    by_cases h1 : h.notion_id = notionId
    · rw [if_pos h1] at he
      exact ih g st e he
    rw [if_neg h1] at he
    by_cases h2 : h.score < t
    · rw [if_pos h2] at he
      exact ih g _ e he
    rw [if_neg h2] at he
    rcases ih _ _ e he with hmem | hmem
    · rcases mergeSimilarTo_mem _ _ _ _ e hmem with hg | hnew
      · exact Or.inl hg
      · exact Or.inr ⟨h.score, h2, hnew.2.2.2⟩
    · exact Or.inr hmem

/-- Edge-shape invariant of the notion per-point loop, for runs that
complete without a raised query error. -/
theorem SimilarityEdges.pointsLoop_mem_ok (query : SimilarityEdges.NQuery)
    (t : ℚ) (ps : List SimilarityEdges.NPoint) :
    ∀ g st g2 st2,
      SimilarityEdges.pointsLoop query t g st ps = Except.ok (g2, st2) →
      ∀ e ∈ g2.edges,
        e ∈ g.edges
        ∨ ∃ s : ℚ, ¬ s < t ∧ e.score = SimilarityEdges.round3 s := by
  induction ps with
  | nil =>
    intro g st g2 st2 hok e he
    have hg : g = g2 := by
      have h := hok
      unfold SimilarityEdges.pointsLoop at h
      rw [Except.ok.injEq, Prod.mk.injEq] at h
      exact h.1
    exact Or.inl (hg ▸ he)
  | cons p ps ih =>
    intro g st g2 st2 hok e he
    unfold SimilarityEdges.pointsLoop at hok
    by_cases h1 : p.notion_id = ""
    · rw [if_pos h1] at hok
      exact ih g st g2 st2 hok e he
    rw [if_neg h1] at hok
    rcases hq : query p.vector (SimilarityEdges.TOP_K + 1) with _ | hits
    · rw [hq] at hok
      cases hok
    · rw [hq] at hok
      rcases ih _ _ g2 st2 hok e he with hmem | hmem
      · exact SimilarityEdges.notionHitsLoop_mem t p.notion_id hits g st e hmem
      · exact Or.inr hmem

/-- Sub-threshold candidates — and only they — are counted as skipped by
the notion hits loop. -/
theorem SimilarityEdges.notionHitsLoop_skipped (t : ℚ) (notionId : String)
    (hits : List SimilarityEdges.NHit) :
    ∀ g st, (SimilarityEdges.hitsLoop t notionId g st hits).2.skipped
      = st.skipped + (hits.filter
          (fun h => h.notion_id ≠ notionId ∧ h.score < t)).length := by
  induction hits with
  | nil => intro g st; simp [SimilarityEdges.hitsLoop]
  | cons h hs ih =>
    intro g st
    unfold SimilarityEdges.hitsLoop
    by_cases h1 : h.notion_id = notionId
    · have hf : List.filter
          (fun h => decide (h.notion_id ≠ notionId ∧ h.score < t)) (h :: hs)
          = List.filter
            (fun h => decide (h.notion_id ≠ notionId ∧ h.score < t)) hs := by
        simp [List.filter_cons, h1]
      rw [if_pos h1, hf]
      exact ih g st
    rw [if_neg h1]
    by_cases h2 : h.score < t
    · have hf : List.filter
          (fun h => decide (h.notion_id ≠ notionId ∧ h.score < t)) (h :: hs)
          = h :: List.filter
            (fun h => decide (h.notion_id ≠ notionId ∧ h.score < t)) hs := by
        simp [List.filter_cons, h1, h2]
      rw [if_pos h2, hf, ih, List.length_cons]
      have hpr : ({ st with skipped := st.skipped + 1 } : SimStats).skipped
          = st.skipped + 1 := rfl
      rw [hpr]
      omega
    have hf : List.filter
        (fun h => decide (h.notion_id ≠ notionId ∧ h.score < t)) (h :: hs)
        = List.filter
          (fun h => decide (h.notion_id ≠ notionId ∧ h.score < t)) hs := by
      simp [List.filter_cons, h1, h2]
    rw [if_neg h2, hf, ih]
    have hsk : (if 0 < (mergeSimilarTo g notionId h.notion_id
        (SimilarityEdges.round3 h.score)).2 then
          { st with created := st.created + 1 } else st).skipped
        = st.skipped := by
      split <;> rfl
    rw [hsk]

/-- Sub-threshold candidates — and only they — are counted as skipped by
the code-graph hits loop. -/
theorem CodeGraphBuilder.codeHitsLoop_skipped (pid srcPath : String)
    (chits : List CodeGraphBuilder.CHit) :
    ∀ g st, (CodeGraphBuilder.hitsLoop pid srcPath g st chits).2.skipped
      = st.skipped + (chits.filter (fun h => h.hid ≠ pid
          ∧ h.score < CodeGraphBuilder.SIMILARITY_THRESHOLD)).length := by
  induction chits with
  | nil => intro g st; simp [CodeGraphBuilder.hitsLoop]
  | cons h hs ih =>
    intro g st
    unfold CodeGraphBuilder.hitsLoop
    by_cases h1 : h.hid = pid
    · have hf : List.filter (fun h => decide (h.hid ≠ pid
          ∧ h.score < CodeGraphBuilder.SIMILARITY_THRESHOLD)) (h :: hs)
          = List.filter (fun h => decide (h.hid ≠ pid
            ∧ h.score < CodeGraphBuilder.SIMILARITY_THRESHOLD)) hs := by
        simp [List.filter_cons, h1]
      rw [if_pos h1, hf]
      exact ih g st
    rw [if_neg h1]
    by_cases h2 : h.score < CodeGraphBuilder.SIMILARITY_THRESHOLD
    · have hf : List.filter (fun h => decide (h.hid ≠ pid
          ∧ h.score < CodeGraphBuilder.SIMILARITY_THRESHOLD)) (h :: hs)
          = h :: List.filter (fun h => decide (h.hid ≠ pid
            ∧ h.score < CodeGraphBuilder.SIMILARITY_THRESHOLD)) hs := by
        simp [List.filter_cons, h1, h2]
      rw [if_pos h2, hf, ih, List.length_cons]
      have hpr : ({ st with skipped := st.skipped + 1 } : SimStats).skipped
          = st.skipped + 1 := rfl
      rw [hpr]
      omega
    have hf : List.filter (fun h => decide (h.hid ≠ pid
        ∧ h.score < CodeGraphBuilder.SIMILARITY_THRESHOLD)) (h :: hs)
        = List.filter (fun h => decide (h.hid ≠ pid
          ∧ h.score < CodeGraphBuilder.SIMILARITY_THRESHOLD)) hs := by
      simp [List.filter_cons, h1, h2]
    rw [if_neg h2, hf]
    by_cases h3 : strLt srcPath h.relative_path = true
    · rw [if_pos h3, ih]
      have hsk : (if 0 < (mergeSimilarTo g srcPath h.relative_path h.score).2
          then { st with created := st.created + 1 } else st).skipped
          = st.skipped := by
        split <;> rfl
      rw [hsk]
    · rw [if_neg h3]
      exact ih g st

/-! ## C7 — threshold enforcement -/

/-- C7: every similarity edge either resolver emits carries a score at or
above the configured threshold, and every sub-threshold candidate is
discarded and counted as skipped, never materialized.  For the notion
resolver the stored score is the hit score rounded to three decimals, so
the statement for the stored attribute needs the threshold to be a whole
multiple of 1/1000 — which both configured defaults (0.75) are. -/
theorem C7_threshold_enforcement (g g2 : Graph)
    (points : List SimilarityEdges.NPoint) (query : SimilarityEdges.NQuery)
    (t : ℚ) (n : ℤ) (ht : t * 1000 = (n : ℚ))
    (points2 : List CodeGraphBuilder.RPoint) (query2 : CodeGraphBuilder.CQuery)
    (st st2 : SimStats) (notionId pid srcPath : String)
    (hits : List SimilarityEdges.NHit) (chits : List CodeGraphBuilder.CHit) :
    (∀ gOut stOut,
      SimilarityEdges.create_similarity_edges g points query t
        = Except.ok (gOut, stOut) →
      ∀ e ∈ gOut.edges, e.kind = "SIMILAR_TO" → t ≤ e.score)
    ∧ (∀ e ∈ (CodeGraphBuilder.create_similarity_edges g2 points2 query2).1.edges,
        e ∉ g2.edges → CodeGraphBuilder.SIMILARITY_THRESHOLD ≤ e.score)
    ∧ (SimilarityEdges.hitsLoop t notionId g st hits).2.skipped
        = st.skipped + (hits.filter
            (fun h => h.notion_id ≠ notionId ∧ h.score < t)).length
    ∧ (CodeGraphBuilder.hitsLoop pid srcPath g2 st2 chits).2.skipped
        = st2.skipped + (chits.filter (fun h => h.hid ≠ pid
            ∧ h.score < CodeGraphBuilder.SIMILARITY_THRESHOLD)).length := by
  refine ⟨?_, ?_, SimilarityEdges.notionHitsLoop_skipped t notionId hits g st,
    CodeGraphBuilder.codeHitsLoop_skipped pid srcPath chits g2 st2⟩
  · intro gOut stOut hok e he hkind
    rcases SimilarityEdges.pointsLoop_mem_ok query t points _ _ gOut stOut hok
        e he with hmem | hmem
    · exfalso
      have hne := List.of_mem_filter hmem
      rw [hkind] at hne
      simp at hne
    · obtain ⟨s, hs, hscore⟩ := hmem
      rw [hscore]
      exact SimilarityEdges.round3_preserves_ge t s n ht (le_of_not_lt hs)
  · intro e he hnotin
    rcases CodeGraphBuilder.pointsLoop_mem query2 points2 g2
        { created := 0, skipped := 0 } e he with hmem | hmem
    · exact absurd hmem hnotin
    · exact hmem.2.2

/-- C7 witness: the threshold bound and skip counts evaluated at the
default threshold 0.75 on a concrete run. -/
theorem C7_threshold_enforcement_witness :
    (∀ gOut stOut,
      SimilarityEdges.create_similarity_edges Fixtures.gAB
          [Fixtures.pA, Fixtures.pB] Fixtures.qAB (mkRat 3 4)
        = Except.ok (gOut, stOut) →
      ∀ e ∈ gOut.edges, e.kind = "SIMILAR_TO" → mkRat 3 4 ≤ e.score)
    ∧ (∀ e ∈ (CodeGraphBuilder.create_similarity_edges Fixtures.gCode
          [Fixtures.rA] Fixtures.qCode).1.edges,
        e ∉ Fixtures.gCode.edges →
        CodeGraphBuilder.SIMILARITY_THRESHOLD ≤ e.score)
    ∧ (SimilarityEdges.hitsLoop (mkRat 3 4) "p" Fixtures.gSeven
          { created := 0, skipped := 0 } Fixtures.hitsSix).2.skipped
        = ({ created := 0, skipped := 0 } : SimStats).skipped
          + (Fixtures.hitsSix.filter
              (fun h => h.notion_id ≠ "p" ∧ h.score < mkRat 3 4)).length
    ∧ (CodeGraphBuilder.hitsLoop "1" "A.swift" Fixtures.gCode
          { created := 0, skipped := 0 } []).2.skipped
        = ({ created := 0, skipped := 0 } : SimStats).skipped
          + (([] : List CodeGraphBuilder.CHit).filter (fun h => h.hid ≠ "1"
              ∧ h.score < CodeGraphBuilder.SIMILARITY_THRESHOLD)).length :=
  C7_threshold_enforcement Fixtures.gAB Fixtures.gCode
    [Fixtures.pA, Fixtures.pB] Fixtures.qAB (mkRat 3 4) 750
    (by rw [Rat.mkRat_eq_div]; norm_num)
    [Fixtures.rA] Fixtures.qCode { created := 0, skipped := 0 }
    { created := 0, skipped := 0 } "p" "1" "A.swift" Fixtures.hitsSix []

/-! ## C2 — node materialization: MERGE versus CREATE -/

/-- C2 counterexample: page node creation (graph_builder.create_page_nodes)
uses a plain CREATE under the page_id uniqueness constraint, not MERGE.
Materializing the same page id twice (with a changed title) leaves one node
— but the second invocation is a caught constraint violation: the error
counter increments and the title is NOT refreshed, so the repeated
invocation is neither merge-semantics nor a no-op beyond attribute
refresh. -/
theorem C2_counterexample :
    ((GraphBuilder.create_page_nodes
        (GraphBuilder.create_page_nodes [] [Fixtures.pageT1]).1
        [Fixtures.pageT2]).1.map GraphBuilder.PageNode.title = ["t1"])
    ∧ (GraphBuilder.create_page_nodes
        (GraphBuilder.create_page_nodes [] [Fixtures.pageT1]).1
        [Fixtures.pageT2]).2.errors = 1 := by
  refine ⟨by decide, by decide⟩

/-- C2 as amended: code-file node creation
(code_graph_builder.create_code_nodes) does use MERGE keyed by path —
materializing the same path twice yields exactly one node carrying the
attributes of the latest payload, with no error.  Page node creation
(graph_builder.create_page_nodes) uses CREATE under a unique-id constraint:
a repeated materialization still yields exactly one node, but it raises,
is caught and counted as an error, and the attributes are not refreshed. -/
theorem C2_code_nodes_merge_page_nodes_create
    (p1 p2 : CodeEmbedder.CPoint)
    (hpath : p2.payload.relative_path = p1.payload.relative_path)
    (q1 q2 : VectorStore.Page) (hid : q2.id = q1.id) :
    (CodeGraphBuilder.create_code_nodes
        (CodeGraphBuilder.create_code_nodes [] [p1]).1 [p2]).1
      = [CodeGraphBuilder.codeNodeOf p2.payload]
    ∧ (CodeGraphBuilder.create_code_nodes
        (CodeGraphBuilder.create_code_nodes [] [p1]).1 [p2]).2.errors = 0
    ∧ (GraphBuilder.create_page_nodes
        (GraphBuilder.create_page_nodes [] [q1]).1 [q2]).1
      = [GraphBuilder.pageNodeOf q1]
    ∧ (GraphBuilder.create_page_nodes
        (GraphBuilder.create_page_nodes [] [q1]).1 [q2]).2.errors = 1 := by
  have hcode : (CodeGraphBuilder.create_code_nodes [] [p1]).1
      = [CodeGraphBuilder.codeNodeOf p1.payload] := rfl
  have hpage : (GraphBuilder.create_page_nodes [] [q1]).1
      = [GraphBuilder.pageNodeOf q1] := rfl
  refine ⟨?_, ?_, ?_, ?_⟩
  · rw [hcode]
    unfold CodeGraphBuilder.create_code_nodes CodeGraphBuilder.create_code_node
    have hmatch : ([CodeGraphBuilder.codeNodeOf p1.payload].any
        (fun n => n.path = p2.payload.relative_path)) = true := by
      simp [CodeGraphBuilder.codeNodeOf, hpath]
    simp only [List.foldl_cons, List.foldl_nil, hmatch, if_true]
    simp [CodeGraphBuilder.codeNodeOf, hpath]
  · rw [hcode]
    unfold CodeGraphBuilder.create_code_nodes CodeGraphBuilder.create_code_node
    have hmatch : ([CodeGraphBuilder.codeNodeOf p1.payload].any
        (fun n => n.path = p2.payload.relative_path)) = true := by
      simp [CodeGraphBuilder.codeNodeOf, hpath]
    simp only [List.foldl_cons, List.foldl_nil, hmatch, if_true]
  · rw [hpage]
    unfold GraphBuilder.create_page_nodes GraphBuilder.create_page_node
    have hmatch : ([GraphBuilder.pageNodeOf q1].any
        (fun n => n.id = q2.id)) = true := by
      simp [GraphBuilder.pageNodeOf, hid]
    simp only [List.foldl_cons, List.foldl_nil, hmatch, if_true]
  · rw [hpage]
    unfold GraphBuilder.create_page_nodes GraphBuilder.create_page_node
    have hmatch : ([GraphBuilder.pageNodeOf q1].any
        (fun n => n.id = q2.id)) = true := by
      simp [GraphBuilder.pageNodeOf, hid]
    simp only [List.foldl_cons, List.foldl_nil, hmatch, if_true]

/-- C2 witness: the merge/create contrast evaluated on the concrete
fixtures (same key, changed attribute). -/
theorem C2_code_nodes_merge_page_nodes_create_witness :
    (CodeGraphBuilder.create_code_nodes
        (CodeGraphBuilder.create_code_nodes [] [Fixtures.cptV1]).1
        [Fixtures.cptV2]).1
      = [CodeGraphBuilder.codeNodeOf Fixtures.cptV2.payload]
    ∧ (CodeGraphBuilder.create_code_nodes
        (CodeGraphBuilder.create_code_nodes [] [Fixtures.cptV1]).1
        [Fixtures.cptV2]).2.errors = 0
    ∧ (GraphBuilder.create_page_nodes
        (GraphBuilder.create_page_nodes [] [Fixtures.pageT1]).1
        [Fixtures.pageT2]).1
      = [GraphBuilder.pageNodeOf Fixtures.pageT1]
    ∧ (GraphBuilder.create_page_nodes
        (GraphBuilder.create_page_nodes [] [Fixtures.pageT1]).1
        [Fixtures.pageT2]).2.errors = 1 :=
  C2_code_nodes_merge_page_nodes_create Fixtures.cptV1 Fixtures.cptV2 rfl
    Fixtures.pageT1 Fixtures.pageT2 rfl

/-! ## C3 — upsert retry policy and the final remainder flush -/

/-- C3 counterexample: four pages embed into a remainder buffer below the
flush size, so they reach the final end-of-stream upsert, which the source
issues bare — one attempt, no try/except.  With a store failing the first
call (a retry would succeed, since later outcomes default to success), the
run aborts with the raised error instead of retrying once and continuing:
the claimed retry-once-then-drop-and-continue policy does not extend to the
final remainder flush. -/
theorem C3_counterexample :
    VectorStore.process_pages Fixtures.pages4 Fixtures.encOK [false]
      = Except.error () := by
  rfl

/-- C3 as amended: only the in-loop flush of the notion pipeline
(vector_store.process_pages) retries a failed upsert exactly once, dropping
the batch and adding its size to the error counter when the retry also
fails; the code pipeline (code_embedder.process_files) never retries — a
single failure drops the batch and counts its size; and in both pipelines
the final end-of-stream remainder flush is unprotected: its failure aborts
the run instead of continuing. -/
theorem C3_upsert_retry_policy (outs1 : List Bool) (st1 : VectorStore.WState)
    (h1a : VectorStore.outcomeAt outs1 st1.k = false)
    (h1b : VectorStore.outcomeAt outs1 (st1.k + 1) = true)
    (outs2 : List Bool) (st2 : VectorStore.WState)
    (h2a : VectorStore.outcomeAt outs2 st2.k = false)
    (h2b : VectorStore.outcomeAt outs2 (st2.k + 1) = false)
    (outs3 : List Bool) (st3 : CodeEmbedder.WState)
    (h3 : VectorStore.outcomeAt outs3 st3.k = false)
    (pages : List VectorStore.Page) (enc : VectorStore.Encoder)
    (outs4 : List Bool)
    (hbuf : (VectorStore.embedLoop enc outs4
        { store := [], buffer := [], processed := 0, errors := 0, k := 0 }
        (chunksOf VectorStore.BATCH_SIZE
          (VectorStore.validPages pages))).buffer ≠ [])
    (hfail : VectorStore.outcomeAt outs4
        (VectorStore.embedLoop enc outs4
          { store := [], buffer := [], processed := 0, errors := 0, k := 0 }
          (chunksOf VectorStore.BATCH_SIZE
            (VectorStore.validPages pages))).k = false)
    (fileUuid : String → String) (items : List CodeEmbedder.CodeItem)
    (enc5 : VectorStore.Encoder) (outs5 : List Bool)
    (hbufc : (CodeEmbedder.embedLoop fileUuid enc5 outs5
        { store := [], buffer := [], processed := 0, errors := 0, k := 0 }
        (chunksOf CodeEmbedder.BATCH_SIZE items)).buffer ≠ [])
    (hfailc : VectorStore.outcomeAt outs5
        (CodeEmbedder.embedLoop fileUuid enc5 outs5
          { store := [], buffer := [], processed := 0, errors := 0, k := 0 }
          (chunksOf CodeEmbedder.BATCH_SIZE items)).k = false) :
    VectorStore.flushBuffer outs1 st1
      = { st1 with store := VectorStore.upsertPoints st1.store st1.buffer,
                   buffer := [], k := st1.k + 2 }
    ∧ VectorStore.flushBuffer outs2 st2
      = { st2 with errors := st2.errors + st2.buffer.length,
                   buffer := [], k := st2.k + 2 }
    ∧ CodeEmbedder.flushBuffer outs3 st3
      = { st3 with errors := st3.errors + st3.buffer.length,
                   buffer := [], k := st3.k + 1 }
    ∧ VectorStore.process_pages pages enc outs4 = Except.error ()
    ∧ CodeEmbedder.process_files fileUuid items enc5 outs5
      = Except.error () := by
  refine ⟨?_, ?_, ?_, ?_, ?_⟩
  · unfold VectorStore.flushBuffer
    rw [h1a, h1b]
    simp
  · unfold VectorStore.flushBuffer
    rw [h2a, h2b]
    simp
  · unfold CodeEmbedder.flushBuffer
    rw [h3]
    simp
  · unfold VectorStore.process_pages
    have hb : (VectorStore.embedLoop enc outs4
        { store := [], buffer := [], processed := 0, errors := 0, k := 0 }
        (chunksOf VectorStore.BATCH_SIZE
          (VectorStore.validPages pages))).buffer.isEmpty = false :=
      List.isEmpty_eq_false.mpr hbuf
    simp only [hb, hfail, Bool.false_eq_true, if_false]
  · unfold CodeEmbedder.process_files
    have hb : (CodeEmbedder.embedLoop fileUuid enc5 outs5
        { store := [], buffer := [], processed := 0, errors := 0, k := 0 }
        (chunksOf CodeEmbedder.BATCH_SIZE items)).buffer.isEmpty = false :=
      List.isEmpty_eq_false.mpr hbufc
    simp only [hb, hfailc, Bool.false_eq_true, if_false]

/-- C3 witness: the three flush behaviors and the final-flush abort
evaluated on concrete states and outcome streams. -/
theorem C3_upsert_retry_policy_witness :
    VectorStore.flushBuffer [false, true] Fixtures.wst1
      = { Fixtures.wst1 with
            store := VectorStore.upsertPoints Fixtures.wst1.store
              Fixtures.wst1.buffer,
            buffer := [], k := Fixtures.wst1.k + 2 }
    ∧ VectorStore.flushBuffer [false, false] Fixtures.wst1
      = { Fixtures.wst1 with
            errors := Fixtures.wst1.errors + Fixtures.wst1.buffer.length,
            buffer := [], k := Fixtures.wst1.k + 2 }
    ∧ CodeEmbedder.flushBuffer [false] Fixtures.cwst1
      = { Fixtures.cwst1 with
            errors := Fixtures.cwst1.errors + Fixtures.cwst1.buffer.length,
            buffer := [], k := Fixtures.cwst1.k + 1 }
    ∧ VectorStore.process_pages Fixtures.pages4 Fixtures.encOK [false]
      = Except.error ()
    ∧ CodeEmbedder.process_files id Fixtures.items4 Fixtures.encOK [false]
      = Except.error () :=
  C3_upsert_retry_policy [false, true] Fixtures.wst1 rfl rfl
    [false, false] Fixtures.wst1 rfl rfl
    [false] Fixtures.cwst1 rfl
    Fixtures.pages4 Fixtures.encOK [false] (by decide) (by decide)
    id Fixtures.items4 Fixtures.encOK [false] (by decide) (by decide)

/-- A successful in-loop flush does not change the error counter. -/
theorem VectorStore.flushBuffer_of_success (outs : List Bool)
    (st : VectorStore.WState) (h : VectorStore.outcomeAt outs st.k = true) :
    VectorStore.flushBuffer outs st
      = { st with store := VectorStore.upsertPoints st.store st.buffer,
                  buffer := [], k := st.k + 1 } := by
  unfold VectorStore.flushBuffer
  rw [h]
  simp

/-- With every upsert call succeeding, the embedding loop's error counter
counts exactly BATCH_SIZE per chunk whose encode call raised. -/
theorem VectorStore.embedLoop_errors (enc : VectorStore.Encoder)
    (outs : List Bool) (houts : ∀ b ∈ outs, b = true)
    (cs : List (List (VectorStore.Page × String))) :
    ∀ st, (VectorStore.embedLoop enc outs st cs).errors
      = st.errors + VectorStore.BATCH_SIZE * cs.countP
          (fun c => (enc (VectorStore.embed_batch_request
            (c.map Prod.snd))).isNone) := by
  induction cs with
  | nil => intro st; simp [VectorStore.embedLoop]
  | cons c cs ih =>
    intro st
    show (VectorStore.embedLoop enc outs
      (VectorStore.chunkStep enc outs st c) cs).errors = _
    rw [ih, List.countP_cons]
    rcases henc : enc (VectorStore.embed_batch_request (c.map Prod.snd))
      with _ | vs
    · have hstep : VectorStore.chunkStep enc outs st c
          = { st with errors := st.errors + VectorStore.BATCH_SIZE } := by
        unfold VectorStore.chunkStep
        rw [henc]
      rw [hstep]
      simp only [henc, Option.isNone_none, if_true, Nat.mul_add, Nat.mul_one]
      omega
    · have hstep : (VectorStore.chunkStep enc outs st c).errors = st.errors := by
        unfold VectorStore.chunkStep
        rw [henc]
        simp only []
        split
        · rw [VectorStore.flushBuffer_of_success outs _
            (VectorStore.outcomeAt_all_true outs houts _)]
        · rfl
      rw [hstep]
      simp [henc]

/-! ## C4 — error tally of failed embedding chunks -/

/-- C4 counterexample: five non-blank pages form chunks of sizes 4 and 1;
the encoder raises exactly on the single-text chunk, so exactly one chunk
— holding one item — is dropped, yet the error tally of the completed run
is BATCH_SIZE = 4, not 1: the tally counts the configured batch size, not
the number of dropped items of the failed chunk. -/
theorem C4_counterexample :
    VectorStore.runErrors (VectorStore.process_pages Fixtures.pages5
        Fixtures.encFailShort []) = some 4
    ∧ ((chunksOf VectorStore.BATCH_SIZE
          (VectorStore.validPages Fixtures.pages5)).filter
        (fun c => (Fixtures.encFailShort (VectorStore.embed_batch_request
          (c.map Prod.snd))).isNone)).map List.length = [1] := by
  refine ⟨by rfl, by rfl⟩

/-- C4 as amended: for every failed embedding chunk, both pipelines drop
the whole chunk, continue with the next chunk, and add the constant
BATCH_SIZE = 4 to the error tally — the number of dropped items only for
full chunks, an overcount for a shorter final chunk.  With all upserts
succeeding, a notion run completes and reports exactly
BATCH_SIZE * (number of failed chunks) errors; one failed code chunk step
adds exactly BATCH_SIZE. -/
theorem C4_failed_chunk_error_tally (pages : List VectorStore.Page)
    (enc : VectorStore.Encoder) (outs : List Bool)
    (houts : ∀ b ∈ outs, b = true)
    (fileUuid : String → String) (enc2 : VectorStore.Encoder)
    (outs2 : List Bool) (stc : CodeEmbedder.WState)
    (c : List CodeEmbedder.CodeItem)
    (hfail : enc2 (CodeEmbedder.embed_batch_request
      (c.map CodeEmbedder.CodeItem.text)) = none) :
    VectorStore.runErrors (VectorStore.process_pages pages enc outs)
      = some (VectorStore.BATCH_SIZE
          * (chunksOf VectorStore.BATCH_SIZE
              (VectorStore.validPages pages)).countP
            (fun c => (enc (VectorStore.embed_batch_request
              (c.map Prod.snd))).isNone))
    ∧ CodeEmbedder.chunkStep fileUuid enc2 outs2 stc c
      = { stc with errors := stc.errors + CodeEmbedder.BATCH_SIZE } := by
  constructor
  · have herr := VectorStore.embedLoop_errors enc outs houts
      (chunksOf VectorStore.BATCH_SIZE (VectorStore.validPages pages))
      { store := [], buffer := [], processed := 0, errors := 0, k := 0 }
    unfold VectorStore.process_pages
    by_cases hb : (VectorStore.embedLoop enc outs
        { store := [], buffer := [], processed := 0, errors := 0, k := 0 }
        (chunksOf VectorStore.BATCH_SIZE
          (VectorStore.validPages pages))).buffer.isEmpty
    · simp only [hb, if_true, VectorStore.runErrors]
      rw [herr]
      simp
    · simp only [hb, Bool.false_eq_true, if_false,
        VectorStore.outcomeAt_all_true outs houts, if_true,
        VectorStore.runErrors]
      rw [herr]
      simp
  · unfold CodeEmbedder.chunkStep
    rw [hfail]

/-- C4 witness: the error tally evaluated on the concrete five-page run
with one failed short chunk, and on a concrete failed code chunk. -/
theorem C4_failed_chunk_error_tally_witness :
    VectorStore.runErrors (VectorStore.process_pages Fixtures.pages5
        Fixtures.encFailShort [])
      = some (VectorStore.BATCH_SIZE
          * (chunksOf VectorStore.BATCH_SIZE
              (VectorStore.validPages Fixtures.pages5)).countP
            (fun c => (Fixtures.encFailShort (VectorStore.embed_batch_request
              (c.map Prod.snd))).isNone))
    ∧ CodeEmbedder.chunkStep id (fun _ => none) [] Fixtures.cwst1 []
      = { Fixtures.cwst1 with
            errors := Fixtures.cwst1.errors + CodeEmbedder.BATCH_SIZE } :=
  C4_failed_chunk_error_tally Fixtures.pages5 Fixtures.encFailShort []
    (by intro b hb; cases hb) id (fun _ => none) [] Fixtures.cwst1 [] rfl

/-- The notion_id stored in the points of a positional page/vector zip are
exactly the ids of the first vs.length pages, in order. -/
theorem VectorStore.zipWith_page_to_point_map (ps : List VectorStore.Page) :
    ∀ vs : List Vec,
      (List.zipWith VectorStore.page_to_point ps vs).map
        (fun q => q.payload.notion_id)
      = (ps.take vs.length).map VectorStore.Page.id := by
  induction ps with
  | nil => intro vs; simp
  | cons p ps ih =>
    intro vs
    cases vs with
    | nil => simp
    | cons v vs =>
      simp only [List.zipWith_cons_cons, List.map_cons, List.length_cons,
        List.take_succ_cons]
      rw [ih vs]
      rfl

/-- Unfolding equation of producedFrom at a cons cell. -/
theorem VectorStore.producedFrom_cons (enc : VectorStore.Encoder)
    (c : List (VectorStore.Page × String))
    (cs : List (List (VectorStore.Page × String))) :
    VectorStore.producedFrom enc (c :: cs)
      = match enc (VectorStore.embed_batch_request (c.map Prod.snd)) with
        | none => VectorStore.producedFrom enc cs
        | some vs => List.zipWith VectorStore.page_to_point
            (c.map Prod.fst) vs ++ VectorStore.producedFrom enc cs := rfl

/-- With all upserts succeeding, the store-plus-buffer contents of the
embedding loop are the input contents extended by the upsert-fold of the
produced points, in production order. -/
theorem VectorStore.embedLoop_store (enc : VectorStore.Encoder)
    (outs : List Bool) (houts : ∀ b ∈ outs, b = true)
    (cs : List (List (VectorStore.Page × String))) :
    ∀ st, VectorStore.upsertPoints
        (VectorStore.embedLoop enc outs st cs).store
        (VectorStore.embedLoop enc outs st cs).buffer
      = VectorStore.upsertPoints
          (VectorStore.upsertPoints st.store st.buffer)
          (VectorStore.producedFrom enc cs) := by
  induction cs with
  | nil =>
    intro st
    simp [VectorStore.embedLoop, VectorStore.producedFrom,
      VectorStore.upsertPoints]
  | cons c cs ih =>
    intro st
    have hloop : VectorStore.embedLoop enc outs st (c :: cs)
        = VectorStore.embedLoop enc outs
            (VectorStore.chunkStep enc outs st c) cs := rfl
    rw [hloop, ih]
    rcases henc : enc (VectorStore.embed_batch_request (c.map Prod.snd))
      with _ | vs
    · have hprod : VectorStore.producedFrom enc (c :: cs)
          = VectorStore.producedFrom enc cs := by
        rw [VectorStore.producedFrom_cons, henc]
      have hstep : VectorStore.chunkStep enc outs st c
          = { st with errors := st.errors + VectorStore.BATCH_SIZE } := by
        unfold VectorStore.chunkStep
        rw [henc]
      rw [hprod, hstep]
    · have hprod : VectorStore.producedFrom enc (c :: cs)
          = List.zipWith VectorStore.page_to_point (c.map Prod.fst) vs
            ++ VectorStore.producedFrom enc cs := by
        rw [VectorStore.producedFrom_cons, henc]
      rw [hprod, VectorStore.upsertPoints_append]
      have hstep : VectorStore.chunkStep enc outs st c
          = (if VectorStore.UPSERT_BATCH_SIZE ≤
                ({ st with
                    buffer := st.buffer ++ List.zipWith
                      VectorStore.page_to_point (c.map Prod.fst) vs,
                    processed := st.processed + (List.zipWith
                      VectorStore.page_to_point (c.map Prod.fst) vs).length
                  } : VectorStore.WState).buffer.length
              then VectorStore.flushBuffer outs
                { st with
                    buffer := st.buffer ++ List.zipWith
                      VectorStore.page_to_point (c.map Prod.fst) vs,
                    processed := st.processed + (List.zipWith
                      VectorStore.page_to_point (c.map Prod.fst) vs).length }
              else
                { st with
                    buffer := st.buffer ++ List.zipWith
                      VectorStore.page_to_point (c.map Prod.fst) vs,
                    processed := st.processed + (List.zipWith
                      VectorStore.page_to_point (c.map Prod.fst) vs).length }) := by
        unfold VectorStore.chunkStep
        rw [henc]
      rw [hstep]
      congr 1
      split
      · rw [VectorStore.flushBuffer_of_success outs _
          (VectorStore.outcomeAt_all_true outs houts _)]
        show VectorStore.upsertPoints
          (VectorStore.upsertPoints st.store
            (st.buffer ++ List.zipWith VectorStore.page_to_point
              (c.map Prod.fst) vs)) [] = _
        rw [show ∀ ps : List VectorStore.QPoint,
            VectorStore.upsertPoints ps [] = ps from fun _ => rfl,
          VectorStore.upsertPoints_append]
      · show VectorStore.upsertPoints st.store
          (st.buffer ++ List.zipWith VectorStore.page_to_point
            (c.map Prod.fst) vs) = _
        rw [VectorStore.upsertPoints_append]

/-- The number of produced points plus the items of failed chunks accounts
for every chunked item, when the encoder answers one vector per text. -/
theorem VectorStore.producedFrom_length (enc : VectorStore.Encoder)
    (henc : ∀ r vs, enc r = some vs → vs.length = r.texts.length) :
    ∀ cs : List (List (VectorStore.Page × String)),
      (VectorStore.producedFrom enc cs).length
        + ((cs.filter (fun c => (enc (VectorStore.embed_batch_request
            (c.map Prod.snd))).isNone)).map List.length).sum
      = cs.flatten.length := by
  intro cs
  induction cs with
  | nil => rfl
  | cons c cs ih =>
    unfold VectorStore.producedFrom
    rw [List.filter_cons, List.flatten_cons, List.length_append]
    rcases henc2 : enc (VectorStore.embed_batch_request (c.map Prod.snd))
      with _ | vs
    · simp only [henc2, Option.isNone_none, if_true, List.map_cons,
        List.sum_cons]
      omega
    · have hlen : vs.length = c.length := by
        rw [henc _ _ henc2]
        simp [VectorStore.embed_batch_request]
      simp only [henc2, Option.isNone_some, Bool.false_eq_true, if_false,
        List.length_append, List.length_zipWith, List.length_map, hlen,
        Nat.min_self]
      omega

/-- The produced points carry the chunked pages as an order-preserving
sublist (dropped chunks only remove a contiguous run). -/
theorem VectorStore.producedFrom_sublist (enc : VectorStore.Encoder) :
    ∀ cs : List (List (VectorStore.Page × String)),
      List.Sublist
        ((VectorStore.producedFrom enc cs).map (fun q => q.payload.notion_id))
        ((cs.flatten).map (fun pc => pc.1.id)) := by
  intro cs
  induction cs with
  | nil => simp [VectorStore.producedFrom]
  | cons c cs ih =>
    unfold VectorStore.producedFrom
    rw [List.flatten_cons, List.map_append]
    rcases henc2 : enc (VectorStore.embed_batch_request (c.map Prod.snd))
      with _ | vs
    · exact ih.trans (List.sublist_append_right _ _)
    · rw [List.map_append, VectorStore.zipWith_page_to_point_map]
      refine List.Sublist.append ?_ ih
      have h1 : List.Sublist ((c.map Prod.fst).take vs.length)
          (c.map Prod.fst) := List.take_sublist _ _
      have h2 := h1.map VectorStore.Page.id
      rw [List.map_map] at h2
      exact h2

/-! ## C9 — batching shape and order preservation -/

/-- C9: the notion embedder groups its inputs into contiguous chunks of at
most BATCH_SIZE in original order (the chunks concatenate back to the
input), sends each chunk in one encode call requesting dense vectors only,
pairs pages with returned vectors positionally, and — when all upserts
succeed — a run completes holding exactly the produced points: one point
per input minus exactly the items of failed chunks, with the surviving
pages an order-preserving sublist of the input. -/
theorem C9_embed_batching_order (pages : List VectorStore.Page)
    (enc : VectorStore.Encoder) (outs : List Bool)
    (henc : ∀ r vs, enc r = some vs → vs.length = r.texts.length)
    (houts : ∀ b ∈ outs, b = true) :
    (chunksOf VectorStore.BATCH_SIZE
        (VectorStore.validPages pages)).flatten = VectorStore.validPages pages
    ∧ (∀ c ∈ chunksOf VectorStore.BATCH_SIZE (VectorStore.validPages pages),
        c.length ≤ VectorStore.BATCH_SIZE
        ∧ (VectorStore.embed_batch_request (c.map Prod.snd)).returnDense = true
        ∧ (VectorStore.embed_batch_request (c.map Prod.snd)).returnSparse = false
        ∧ (VectorStore.embed_batch_request (c.map Prod.snd)).returnColbert = false
        ∧ (VectorStore.embed_batch_request (c.map Prod.snd)).texts
          = c.map Prod.snd)
    ∧ (∃ stats, VectorStore.process_pages pages enc outs
        = Except.ok (stats,
            VectorStore.upsertPoints [] (VectorStore.producedPoints enc pages)))
    ∧ (VectorStore.producedPoints enc pages).length
        + VectorStore.droppedCount enc pages
      = (VectorStore.validPages pages).length
    ∧ List.Sublist
        ((VectorStore.producedPoints enc pages).map
          (fun q => q.payload.notion_id))
        ((VectorStore.validPages pages).map (fun pc => pc.1.id)) := by
  have hflat := chunksOf_flatten VectorStore.BATCH_SIZE (by decide)
    (VectorStore.validPages pages)
  refine ⟨hflat, ?_, ?_, ?_, ?_⟩
  · intro c hc
    exact ⟨chunksOf_length_le _ _ c hc, rfl, rfl, rfl, rfl⟩
  · have hstore2 : VectorStore.upsertPoints
        (VectorStore.embedLoop enc outs
          { store := [], buffer := [], processed := 0, errors := 0, k := 0 }
          (chunksOf VectorStore.BATCH_SIZE
            (VectorStore.validPages pages))).store
        (VectorStore.embedLoop enc outs
          { store := [], buffer := [], processed := 0, errors := 0, k := 0 }
          (chunksOf VectorStore.BATCH_SIZE
            (VectorStore.validPages pages))).buffer
        = VectorStore.upsertPoints [] (VectorStore.producedPoints enc pages) :=
      VectorStore.embedLoop_store enc outs houts
        (chunksOf VectorStore.BATCH_SIZE (VectorStore.validPages pages))
        { store := [], buffer := [], processed := 0, errors := 0, k := 0 }
    unfold VectorStore.process_pages
    by_cases hb : (VectorStore.embedLoop enc outs
        { store := [], buffer := [], processed := 0, errors := 0, k := 0 }
        (chunksOf VectorStore.BATCH_SIZE
          (VectorStore.validPages pages))).buffer.isEmpty
    · simp only [hb, if_true]
      have hempty := List.isEmpty_iff.mp hb
      rw [hempty] at hstore2
      rw [show ∀ ps : List VectorStore.QPoint,
          VectorStore.upsertPoints ps [] = ps from fun _ => rfl] at hstore2
      exact ⟨_, by rw [hstore2]⟩
    · simp only [hb, Bool.false_eq_true, if_false,
        VectorStore.outcomeAt_all_true outs houts, if_true]
      exact ⟨_, by rw [hstore2]⟩
  · have := VectorStore.producedFrom_length enc henc
      (chunksOf VectorStore.BATCH_SIZE (VectorStore.validPages pages))
    rw [hflat] at this
    exact this
  · have := VectorStore.producedFrom_sublist enc
      (chunksOf VectorStore.BATCH_SIZE (VectorStore.validPages pages))
    rw [hflat] at this
    exact this

/-- C9 witness: the batching and order facts evaluated on a concrete
four-page run with an always-succeeding encoder. -/
theorem C9_embed_batching_order_witness :
    (chunksOf VectorStore.BATCH_SIZE
        (VectorStore.validPages Fixtures.pages4)).flatten
      = VectorStore.validPages Fixtures.pages4
    ∧ (∀ c ∈ chunksOf VectorStore.BATCH_SIZE
          (VectorStore.validPages Fixtures.pages4),
        c.length ≤ VectorStore.BATCH_SIZE
        ∧ (VectorStore.embed_batch_request (c.map Prod.snd)).returnDense = true
        ∧ (VectorStore.embed_batch_request (c.map Prod.snd)).returnSparse = false
        ∧ (VectorStore.embed_batch_request (c.map Prod.snd)).returnColbert = false
        ∧ (VectorStore.embed_batch_request (c.map Prod.snd)).texts
          = c.map Prod.snd)
    ∧ (∃ stats, VectorStore.process_pages Fixtures.pages4 Fixtures.encOK []
        = Except.ok (stats, VectorStore.upsertPoints []
            (VectorStore.producedPoints Fixtures.encOK Fixtures.pages4)))
    ∧ (VectorStore.producedPoints Fixtures.encOK Fixtures.pages4).length
        + VectorStore.droppedCount Fixtures.encOK Fixtures.pages4
      = (VectorStore.validPages Fixtures.pages4).length
    ∧ List.Sublist
        ((VectorStore.producedPoints Fixtures.encOK Fixtures.pages4).map
          (fun q => q.payload.notion_id))
        ((VectorStore.validPages Fixtures.pages4).map (fun pc => pc.1.id)) :=
  C9_embed_batching_order Fixtures.pages4 Fixtures.encOK []
    (by
      intro r vs h
      have h2 : (r.texts.map (fun _ => ([1] : Vec))) = vs :=
        Option.some.inj h
      rw [← h2, List.length_map])
    (by intro b hb; cases hb)

end NotionKG
